import Mathlib

/-!
Verification of the stacksherpa recommendation core.

Shallow embedding of the TypeScript sources:
  src/scoring.ts      (provider scoring)
  src/profile.ts      (profile merge engine and surgical dot-path updates)
  src/decisions.ts    (decision ledger)
  src/patterns.ts     (pattern inference engine and its TTL cache)
  src/server.ts       (recommendation orchestrator)

JavaScript numbers are idealised as rationals (scores, confidences,
budgets) and epoch-millisecond integers (clock readings).  Date.now()
and the parsed value of an ISO date string enter every definition as
explicit parameters, since they are ambient inputs of the source.
Fields of the source records that none of the verified operations read
are omitted from the embedded record types.
-/

namespace StackSherpa

/-- JS `hay.includes(needle)` substring test, on the character lists of
the two strings. -/
def strIncludes (hay needle : String) : Bool :=
  (List.range (hay.data.length + 1)).any (fun i => needle.data.isPrefixOf (hay.data.drop i))

/-- JS `s.toLowerCase()`, character by character (kernel-reducible variant of
`String.toLower`). -/
def strToLower (s : String) : String :=
  ⟨s.data.map Char.toLower⟩

/-- JS `s.startsWith(pre)` (kernel-reducible variant of `String.startsWith`). -/
def strStartsWith (s pre : String) : Bool :=
  pre.data.isPrefixOf s.data

/-- Decision outcome enumeration from src/types.ts. -/
inductive Outcome where
  | positive
  | negative
  | neutral
  deriving DecidableEq

/-- Free tier details inside a pricing model (src/types.ts `PricingModel.freeTier`);
only its presence is consumed by the verified operations. -/
structure FreeTierInfo where
  included : String := ""
  deriving DecidableEq

/-- Pricing model (src/types.ts `PricingModel`), restricted to the field the
scoring and orchestration code reads. -/
structure PricingModel where
  freeTier : Option FreeTierInfo := none
  deriving DecidableEq

/-- Known issue of a provider (src/types.ts `KnownIssue`), restricted to the
fields the scoring code reads. -/
structure KnownIssue where
  severity : String := ""
  resolvedAt : Option String := none
  deriving DecidableEq

/-- Candidate provider (src/types.ts `KnownProvider`), restricted to the fields
read by `scoreProvider` and the orchestrator.  `lastVerified` models
`new Date(provider.lastVerified).getTime()` directly as epoch milliseconds;
date-string parsing is an external library call. -/
structure KnownProvider where
  name : String
  package : Option String := none
  compliance : Option (List String) := none
  bestFor : Option (List String) := none
  scale : Option (List String) := none
  strengths : Option (List String) := none
  pricing : Option PricingModel := none
  hasFreeTier : Option Bool := none
  ecosystem : Option String := none
  lastVerified : Option Int := none
  knownIssues : Option (List KnownIssue) := none
  selfHostable : Option Bool := none
  deriving DecidableEq

/-- Project context of a local profile (src/types.ts `ProjectContext`). -/
structure ProjectContext where
  name : String := ""
  scale : Option String := none
  regions : Option (List String) := none
  deriving DecidableEq

/-- Nested budget ceiling object (src/types.ts `Constraints.budgetCeiling`). -/
structure BudgetCeiling where
  monthly : Option ℚ := none
  perRequest : Option ℚ := none
  deriving DecidableEq

/-- Constraint block of a profile document (src/types.ts `Constraints`). -/
structure Constraints where
  compliance : Option (List String) := none
  budgetCeiling : Option BudgetCeiling := none
  selfHosted : Option Bool := none
  dataResidency : Option (List String) := none
  mustHaveFeatures : Option (List String) := none
  dealbreakers : Option (List String) := none
  requiredSdkLanguages : Option (List String) := none
  vendorLockInTolerance : Option String := none
  deriving DecidableEq

/-- Preference block of a profile document (src/types.ts `Preferences`). -/
structure Preferences where
  prioritize : Option (List String) := none
  riskTolerance : Option String := none
  preferredProviders : Option (List String) := none
  avoidProviders : Option (List String) := none
  deriving DecidableEq

/-- Merged effective profile (src/types.ts `EffectiveProfile`). -/
structure EffectiveProfile where
  project : Option ProjectContext := none
  constraints : Constraints := {}
  preferences : Preferences := {}
  deriving DecidableEq

/-- Cross-project experience summary (src/types.ts `ExperienceSummary`). -/
structure ExperienceSummary where
  id : String := ""
  project : String := ""
  api : String
  category : String
  outcome : Outcome
  context : Option String := none
  noteSummary : Option String := none
  date : String := ""
  deriving DecidableEq

/-- Confidence-scored pattern (src/types.ts `ScoredPattern`), generic in the
numeric type so the engine can be read both over ℚ (executable) and over ℝ
(for the exponential decay weights).  The source `id` field is a fresh
`randomUUID()` - external randomness - and is omitted. -/
structure ScoredPattern (α : Type) where
  signal : String
  confidence : α
  evidenceIds : List String := []
  firstObserved : String := ""
  lastReinforced : String := ""
  deriving DecidableEq

/-- Ecosystem context passed to the scoring function (src/scoring.ts
`EcosystemContext`); the source `Set<string>` is modelled as a list queried
only through membership. -/
structure EcosystemContext where
  usedEcosystems : List String
  deriving DecidableEq

/-! ## Provider scoring (src/scoring.ts `scoreProvider`)

The source accumulates a `score` variable block by block after an early
`return -1` compliance gate.  Each block below is one source block, and
`scoreProvider` composes them with the same control flow.  `now` is the
`Date.now()` reading of the call. -/

/-- Required compliance list, `effective.constraints?.compliance ?? []`. -/
def complianceRequired (eff : EffectiveProfile) : List String :=
  (eff.constraints.compliance).getD []

/-- The `requiredCompliance.every(c => providerCompliance.some(pc => pc.toLowerCase() === c.toLowerCase()))` check. -/
def holdsAllCompliance (p : KnownProvider) (required : List String) : Bool :=
  required.all (fun c => (p.compliance.getD []).any (fun pc => strToLower pc == strToLower c))

/-- Scale match block: `+15` when the project scale tag is in
`provider.bestFor ?? provider.scale ?? []`. -/
def scaleBonus (p : KnownProvider) (eff : EffectiveProfile) : ℚ :=
  let projectScale := eff.project.bind (fun pr => pr.scale)
  let scaleFit := match p.bestFor with
    | some l => l
    | none => p.scale.getD []
  match projectScale with
  | some s => if scaleFit.contains s then 15 else 0
  | none => 0

/-- Priority alignment block: for the strength at 0-based position `i` of the
priority list, `+(length - i) * 5` when the provider claims it. -/
def priorityBonus (p : KnownProvider) (eff : EffectiveProfile) : ℚ :=
  let priorities := eff.preferences.prioritize.getD []
  (priorities.enum.map (fun pair =>
    if (p.strengths.getD []).contains pair.2 then
      ((priorities.length - pair.1 : ℕ) : ℚ) * 5
    else 0)).sum

/-- The two free-tier signals of the source combined by OR:
`provider.pricing?.freeTier !== undefined || provider.hasFreeTier`. -/
def hasFreeTierSignal (p : KnownProvider) : Bool :=
  (p.pricing.bind (fun pm => pm.freeTier)).isSome || p.hasFreeTier.getD false

/-- Free tier block: `+10` for hobby and startup scale when a free-tier signal
is present. -/
def freeTierBonus (p : KnownProvider) (eff : EffectiveProfile) : ℚ :=
  let projectScale := eff.project.bind (fun pr => pr.scale)
  if (["hobby", "startup"].contains (projectScale.getD "")) && hasFreeTierSignal p then 10
  else 0

/-- Ecosystem affinity block: `+20` when a context is supplied and the
ecosystem tag of the provider is in its used-ecosystem set. -/
def ecosystemBonus (p : KnownProvider) (eco : Option EcosystemContext) : ℚ :=
  match eco, p.ecosystem with
  | some ctx, some e => if ctx.usedEcosystems.contains e then 20 else 0
  | _, _ => 0

/-- Experience adjustment block: `+8` per positive and `-12` per negative
decision whose api matches the provider name case-insensitively. -/
def experienceAdj (p : KnownProvider) (exps : List ExperienceSummary) : ℚ :=
  ((exps.filter (fun e => strToLower e.api == strToLower p.name)).map (fun e =>
    (if e.outcome = Outcome.positive then (8 : ℚ) else 0) +
    (if e.outcome = Outcome.negative then (-12 : ℚ) else 0))).sum

/-- Pattern adjustment block: over patterns whose signal contains the provider
name case-insensitively, `+confidence * 10` for a `prefers:` signal and
`-confidence * 15` for a `dislikes:` signal. -/
def patternAdj (p : KnownProvider) (pats : List (ScoredPattern ℚ)) : ℚ :=
  ((pats.filter (fun q => strIncludes (strToLower q.signal) (strToLower p.name))).map (fun q =>
    (if strStartsWith q.signal "prefers:" then q.confidence * 10 else 0) +
    (if strStartsWith q.signal "dislikes:" then -(q.confidence * 15) else 0))).sum

/-- Staleness test of the source: `Math.floor((now - lastVerified) / dayMs) > 90`.
`Int.fdiv` is floor division, matching `Math.floor` on a real quotient. -/
def isStale (p : KnownProvider) (now : Int) : Bool :=
  match p.lastVerified with
  | some lv => Int.fdiv (now - lv) (1000 * 60 * 60 * 24) > 90
  | none => false

/-- Staleness penalty block: `-5` when data is more than 90 days old. -/
def stalenessPenalty (p : KnownProvider) (now : Int) : ℚ :=
  if isStale p now then -5 else 0

/-- Critical issue penalty block: flat `-10` when at least one unresolved
critical issue exists. -/
def criticalPenalty (p : KnownProvider) : ℚ :=
  let criticalIssues := (p.knownIssues.getD []).filter
    (fun i => i.severity == "critical" && i.resolvedAt.isNone)
  if 0 < criticalIssues.length then -10 else 0

/-- Sum of every scoring block after the compliance gate, in source order. -/
def scoreRest (p : KnownProvider) (eff : EffectiveProfile)
    (exps : List ExperienceSummary) (pats : List (ScoredPattern ℚ))
    (eco : Option EcosystemContext) (now : Int) : ℚ :=
  scaleBonus p eff + priorityBonus p eff + freeTierBonus p eff +
    ecosystemBonus p eco + experienceAdj p exps + patternAdj p pats +
    stalenessPenalty p now + criticalPenalty p

/-- src/scoring.ts `scoreProvider`.  A non-empty compliance requirement is a
hard gate: `return -1` unless every certification is held, `+20` when passed;
all other blocks accumulate additively. -/
def scoreProvider (p : KnownProvider) (eff : EffectiveProfile)
    (exps : List ExperienceSummary) (pats : List (ScoredPattern ℚ))
    (eco : Option EcosystemContext) (now : Int) : ℚ :=
  let required := complianceRequired eff
  if 0 < required.length then
    if holdsAllCompliance p required then 20 + scoreRest p eff exps pats eco now
    else -1
  else scoreRest p eff exps pats eco now

/-! ## Concrete fixtures for the scoring claims -/

/-- Provider holding only GDPR, used against a SOC2+HIPAA requirement. -/
def c1Provider : KnownProvider := { name := "TestMail", compliance := some ["GDPR"] }

/-- Provider holding soc2 and hipaa in lower case, exercising the
case-insensitive comparison. -/
def c1ProviderOk : KnownProvider := { name := "TestMail2", compliance := some ["soc2", "hipaa"] }

/-- Effective profile requiring SOC2 and HIPAA. -/
def c1Profile : EffectiveProfile := { constraints := { compliance := some ["SOC2", "HIPAA"] } }

/-- Effective profile with no compliance requirement. -/
def c1ProfileEmpty : EffectiveProfile := {}

/-- Provider of the spec section 8 scenario: compliance SOC2+HIPAA, bestFor
startup, strengths dx, freshly verified, no issues, no free-tier signal. -/
def c3Base : KnownProvider :=
  { name := "Acme"
    compliance := some ["SOC2", "HIPAA"]
    bestFor := some ["startup"]
    strengths := some ["dx"]
    lastVerified := some 0 }

/-- Configuration of the spec section 8 scenario: startup scale, SOC2
required, priority list [dx]. -/
def c3Profile : EffectiveProfile :=
  { project := some { name := "proj", scale := some "startup" }
    constraints := { compliance := some ["SOC2"] }
    preferences := { prioritize := some ["dx"] } }

/-- Provider whose only time-sensitive datum is a last-verified timestamp at
epoch 0. -/
def c9Provider : KnownProvider := { name := "P", lastVerified := some 0 }

/-! ## Claim C1: the compliance hard gate -/

/-- C1: with a non-empty required-compliance list, `scoreProvider` returns
exactly -1 when the provider misses some required certification
(case-insensitively) and otherwise scores a flat +20 on top of every other
block; with an empty or absent requirement the gate never fires and no
compliance bonus is added (the result is exactly the gate-free remainder). -/
theorem c1_compliance_gate (p : KnownProvider) (eff : EffectiveProfile)
    (exps : List ExperienceSummary) (pats : List (ScoredPattern ℚ))
    (eco : Option EcosystemContext) (now : Int) :
    (0 < (complianceRequired eff).length →
      (holdsAllCompliance p (complianceRequired eff) = false →
        scoreProvider p eff exps pats eco now = -1) ∧
      (holdsAllCompliance p (complianceRequired eff) = true →
        scoreProvider p eff exps pats eco now = 20 + scoreRest p eff exps pats eco now)) ∧
    ((complianceRequired eff).length = 0 →
      scoreProvider p eff exps pats eco now = scoreRest p eff exps pats eco now) := by
  constructor
  · intro h
    constructor
    · intro hf
      simp [scoreProvider, h, hf]
    · intro ht
      simp [scoreProvider, h, ht]
  · intro h0
    simp [scoreProvider, h0]

/-- Witness for C1 at concrete inputs: the disqualification branch, the
passing branch (lower-case certificates against upper-case requirement), and
the empty-requirement branch. -/
theorem c1_compliance_gate_witness :
    scoreProvider c1Provider c1Profile [] [] none 0 = -1 ∧
    scoreProvider c1ProviderOk c1Profile [] [] none 0 =
      20 + scoreRest c1ProviderOk c1Profile [] [] none 0 ∧
    scoreProvider c1Provider c1ProfileEmpty [] [] none 0 =
      scoreRest c1Provider c1ProfileEmpty [] [] none 0 := by
  refine ⟨((c1_compliance_gate c1Provider c1Profile [] [] none 0).1 (by decide)).1 (by decide),
    ((c1_compliance_gate c1ProviderOk c1Profile [] [] none 0).1 (by decide)).2 (by decide),
    (c1_compliance_gate c1Provider c1ProfileEmpty [] [] none 0).2 (by decide)⟩

/-! ## Claim C3: the spec section 8 concrete scenario -/

/-- C3: the scenario provider scores exactly 50 with a free tier signalled by
the nested pricing object, exactly 50 with a free tier signalled by the legacy
flag, and exactly 40 with neither signal (20 compliance + 15 scale + 5
priority + 10 free tier). -/
theorem c3_scenario_scores :
    scoreProvider { c3Base with pricing := some { freeTier := some {} } }
      c3Profile [] [] none 0 = 50 ∧
    scoreProvider { c3Base with hasFreeTier := some true }
      c3Profile [] [] none 0 = 50 ∧
    scoreProvider c3Base c3Profile [] [] none 0 = 40 := by
  refine ⟨?_, ?_, ?_⟩ <;>
    norm_num [scoreProvider, complianceRequired, holdsAllCompliance, strToLower,
      scoreRest, scaleBonus, priorityBonus, freeTierBonus, ecosystemBonus,
      experienceAdj, patternAdj, stalenessPenalty, criticalPenalty, isStale,
      hasFreeTierSignal, c3Base, c3Profile]

/-! ## Claim C9: purity and determinism of the scoring function -/

/-- C9 counterexample: two calls of `scoreProvider` on identical provider,
configuration, experience, pattern and ecosystem arguments return different
numbers when the wall clock differs, because the staleness check reads
Date.now(): at time 0 the provider verified at epoch 0 is fresh, 91 days
later it is stale and scores 5 less. -/
theorem c9_wallclock_counterexample :
    scoreProvider c9Provider c1ProfileEmpty [] [] none 0 ≠
    scoreProvider c9Provider c1ProfileEmpty [] [] none 7862400000 := by
  norm_num [scoreProvider, complianceRequired, holdsAllCompliance, strToLower,
    scoreRest, scaleBonus, priorityBonus, freeTierBonus, ecosystemBonus,
    experienceAdj, patternAdj, stalenessPenalty, criticalPenalty, isStale,
    hasFreeTierSignal, c9Provider, c1ProfileEmpty, Int.fdiv]

/-- C9 amended: `scoreProvider` is a pure function of its arguments plus the
clock reading, and the clock enters only through the staleness test: two
calls with identical arguments that agree on whether the provider is more
than 90 days stale return equal scores. -/
theorem c9_deterministic_given_staleness (p : KnownProvider) (eff : EffectiveProfile)
    (exps : List ExperienceSummary) (pats : List (ScoredPattern ℚ))
    (eco : Option EcosystemContext) (now1 now2 : Int)
    (h : isStale p now1 = isStale p now2) :
    scoreProvider p eff exps pats eco now1 = scoreProvider p eff exps pats eco now2 := by
  simp [scoreProvider, scoreRest, stalenessPenalty, h]

/-- Witness for the amended C9 at two clock readings on the same side of the
staleness boundary. -/
theorem c9_deterministic_witness :
    scoreProvider c9Provider c1ProfileEmpty [] [] none 0 =
    scoreProvider c9Provider c1ProfileEmpty [] [] none 86400000 :=
  c9_deterministic_given_staleness c9Provider c1ProfileEmpty [] [] none 0 86400000 (by decide)

/-! ## Configuration merge engine (src/profile.ts)

`[...new Set([...globalValue, ...localValue])]` keeps the first occurrence of
each element in insertion order; `dedupFirst` is that operation. -/

/-- First-occurrence deduplication with an accumulator of already seen
elements. -/
def dedupFirstAux (seen : List String) : List String → List String
  | [] => []
  | x :: xs => if x ∈ seen then dedupFirstAux seen xs else x :: dedupFirstAux (x :: seen) xs

/-- JS `[...new Set(xs)]`: keep the first occurrence of every element. -/
def dedupFirst (xs : List String) : List String :=
  dedupFirstAux [] xs

/-- Merge policies of src/types.ts `MergePolicy`. -/
inductive MergePolicy where
  | override
  | union
  | min
  | max
  deriving DecidableEq

/-- src/profile.ts `applyMergePolicy` at an array-valued field.  When only one
side is defined that side wins; `union` deduplicates the concatenation with
the global items first; `min` and `max` fall through their typeof-number
guard and return the local value. -/
def applyMergePolicyArr (globalValue localValue : Option (List String))
    (policy : MergePolicy) : Option (List String) :=
  match localValue with
  | none => globalValue
  | some lv =>
    match globalValue with
    | none => some lv
    | some gv =>
      match policy with
      | MergePolicy.override => some lv
      | MergePolicy.union => some (dedupFirst (gv ++ lv))
      | MergePolicy.min => some lv
      | MergePolicy.max => some lv

/-- src/profile.ts `applyMergePolicy` at a number-valued field: `min` and
`max` apply numerically, the other policies return the local value. -/
def applyMergePolicyNum (globalValue localValue : Option ℚ)
    (policy : MergePolicy) : Option ℚ :=
  match localValue with
  | none => globalValue
  | some lv =>
    match globalValue with
    | none => some lv
    | some gv =>
      match policy with
      | MergePolicy.override => some lv
      | MergePolicy.union => some lv
      | MergePolicy.min => some (min gv lv)
      | MergePolicy.max => some (max gv lv)

/-- src/profile.ts `applyMergePolicy` at a scalar field that is neither an
array nor a number: every policy branch returns the local value when both
sides are defined. -/
def applyMergePolicyScalar {T : Type} (globalValue localValue : Option T)
    (policy : MergePolicy) : Option T :=
  match localValue with
  | none => globalValue
  | some lv =>
    match globalValue with
    | none => some lv
    | some _ =>
      match policy with
      | MergePolicy.override => some lv
      | MergePolicy.union => some lv
      | MergePolicy.min => some lv
      | MergePolicy.max => some lv

/-- src/profile.ts `mergeConstraints`: the per-field policy table of the
source (`compliance`, `dataResidency`, `mustHaveFeatures`, `dealbreakers`,
`requiredSdkLanguages` union; `selfHosted`, `vendorLockInTolerance` override;
the nested budget ceiling merged with `min` inside an object that is created
whenever either side has one).  The provenance detail records built alongside
by the source are not consumed by any verified claim and are omitted. -/
def mergeConstraints (g l : Option Constraints) : Constraints :=
  { compliance := applyMergePolicyArr (g.bind fun c => c.compliance)
      (l.bind fun c => c.compliance) MergePolicy.union
    dataResidency := applyMergePolicyArr (g.bind fun c => c.dataResidency)
      (l.bind fun c => c.dataResidency) MergePolicy.union
    mustHaveFeatures := applyMergePolicyArr (g.bind fun c => c.mustHaveFeatures)
      (l.bind fun c => c.mustHaveFeatures) MergePolicy.union
    dealbreakers := applyMergePolicyArr (g.bind fun c => c.dealbreakers)
      (l.bind fun c => c.dealbreakers) MergePolicy.union
    requiredSdkLanguages := applyMergePolicyArr (g.bind fun c => c.requiredSdkLanguages)
      (l.bind fun c => c.requiredSdkLanguages) MergePolicy.union
    selfHosted := applyMergePolicyScalar (g.bind fun c => c.selfHosted)
      (l.bind fun c => c.selfHosted) MergePolicy.override
    vendorLockInTolerance := applyMergePolicyScalar (g.bind fun c => c.vendorLockInTolerance)
      (l.bind fun c => c.vendorLockInTolerance) MergePolicy.override
    budgetCeiling :=
      if (g.bind fun c => c.budgetCeiling).isSome || (l.bind fun c => c.budgetCeiling).isSome then
        some
          { monthly := applyMergePolicyNum
              ((g.bind fun c => c.budgetCeiling).bind fun b => b.monthly)
              ((l.bind fun c => c.budgetCeiling).bind fun b => b.monthly) MergePolicy.min
            perRequest := applyMergePolicyNum
              ((g.bind fun c => c.budgetCeiling).bind fun b => b.perRequest)
              ((l.bind fun c => c.budgetCeiling).bind fun b => b.perRequest) MergePolicy.min }
      else none }

/-- src/profile.ts `mergePreferences`: `prioritize`, `riskTolerance` and
`preferredProviders` override, `avoidProviders` union. -/
def mergePreferences (g l : Option Preferences) : Preferences :=
  { prioritize := applyMergePolicyArr (g.bind fun p => p.prioritize)
      (l.bind fun p => p.prioritize) MergePolicy.override
    riskTolerance := applyMergePolicyScalar (g.bind fun p => p.riskTolerance)
      (l.bind fun p => p.riskTolerance) MergePolicy.override
    avoidProviders := applyMergePolicyArr (g.bind fun p => p.avoidProviders)
      (l.bind fun p => p.avoidProviders) MergePolicy.union
    preferredProviders := applyMergePolicyArr (g.bind fun p => p.preferredProviders)
      (l.bind fun p => p.preferredProviders) MergePolicy.override }

/-! ## Lemmas about first-occurrence deduplication -/

/-- Membership in `dedupFirstAux`: an element appears iff it appears in the
input and was not already seen. -/
theorem mem_dedupFirstAux (xs : List String) (seen : List String) (a : String) :
    a ∈ dedupFirstAux seen xs ↔ a ∈ xs ∧ a ∉ seen := by
  induction xs generalizing seen with
  | nil => simp [dedupFirstAux]
  | cons x xs ih =>
    by_cases hx : x ∈ seen
    · simp only [dedupFirstAux, if_pos hx, ih, List.mem_cons]
      constructor
      · rintro ⟨h1, h2⟩
        exact ⟨Or.inr h1, h2⟩
      · rintro ⟨h1 | h1, h2⟩
        · exact absurd (h1 ▸ hx) h2
        · exact ⟨h1, h2⟩
    · simp only [dedupFirstAux, if_neg hx, List.mem_cons, ih]
      constructor
      · rintro (rfl | ⟨h1, h2⟩)
        · exact ⟨Or.inl rfl, hx⟩
        · exact ⟨Or.inr h1, fun hs => h2 (Or.inr hs)⟩
      · rintro ⟨rfl | h1, h2⟩
        · exact Or.inl rfl
        · by_cases hax : a = x
          · exact Or.inl hax
          · refine Or.inr ⟨h1, fun hs => ?_⟩
            rcases hs with h | h
            · exact hax h
            · exact h2 h

/-- Membership in `dedupFirst` is membership in the input. -/
theorem mem_dedupFirst (xs : List String) (a : String) :
    a ∈ dedupFirst xs ↔ a ∈ xs := by
  simp [dedupFirst, mem_dedupFirstAux]

/-- A suffix whose elements are all seen contributes nothing. -/
theorem dedupFirstAux_eq_nil (ys : List String) (seen : List String)
    (h : ∀ y ∈ ys, y ∈ seen) : dedupFirstAux seen ys = [] := by
  induction ys with
  | nil => rfl
  | cons y ys ih =>
    have hy : y ∈ seen := h y (List.mem_cons_self y ys)
    simp only [dedupFirstAux, if_pos hy]
    exact ih fun z hz => h z (List.mem_cons_of_mem y hz)

/-- Appending elements that are already seen or already present does not
change the deduplication. -/
theorem dedupFirstAux_append (xs : List String) (ys seen : List String)
    (h : ∀ y ∈ ys, y ∈ seen ∨ y ∈ xs) :
    dedupFirstAux seen (xs ++ ys) = dedupFirstAux seen xs := by
  induction xs generalizing seen with
  | nil =>
    simp only [List.nil_append, dedupFirstAux]
    exact dedupFirstAux_eq_nil ys seen fun y hy => (h y hy).resolve_right (by simp)
  | cons x xs ih =>
    by_cases hx : x ∈ seen
    · simp only [List.cons_append, dedupFirstAux, if_pos hx]
      refine ih seen fun y hy => ?_
      rcases h y hy with h1 | h1
      · exact Or.inl h1
      · rcases List.mem_cons.mp h1 with rfl | h2
        · exact Or.inl hx
        · exact Or.inr h2
    · simp only [List.cons_append, dedupFirstAux, if_neg hx]
      refine congrArg (x :: ·) (ih (x :: seen) fun y hy => ?_)
      rcases h y hy with h1 | h1
      · exact Or.inl (List.mem_cons_of_mem x h1)
      · rcases List.mem_cons.mp h1 with rfl | h2
        · exact Or.inl (List.mem_cons_self y seen)
        · exact Or.inr h2

/-- On a duplicate-free list that avoids the seen set, deduplication is the
identity. -/
theorem dedupFirstAux_of_nodup (xs : List String) (seen : List String)
    (hnd : xs.Nodup) (h : ∀ x ∈ xs, x ∉ seen) : dedupFirstAux seen xs = xs := by
  induction xs generalizing seen with
  | nil => rfl
  | cons x xs ih =>
    have hx : x ∉ seen := h x (List.mem_cons_self x xs)
    simp only [dedupFirstAux, if_neg hx]
    refine congrArg (x :: ·) (ih (x :: seen) (List.nodup_cons.mp hnd).2 fun y hy hmem => ?_)
    rcases List.mem_cons.mp hmem with rfl | h2
    · exact (List.nodup_cons.mp hnd).1 hy
    · exact h y (List.mem_cons_of_mem x hy) h2

/-- Deduplication of a duplicate-free list is the identity. -/
theorem dedupFirst_of_nodup (xs : List String) (hnd : xs.Nodup) :
    dedupFirst xs = xs :=
  dedupFirstAux_of_nodup xs [] hnd (by simp)

/-- Re-appending elements already present does not change the deduplication. -/
theorem dedupFirst_append_of_subset (xs ys : List String)
    (h : ∀ y ∈ ys, y ∈ xs) : dedupFirst (xs ++ ys) = dedupFirst xs :=
  dedupFirstAux_append xs ys [] fun y hy => Or.inr (h y hy)

/-- The output of `dedupFirstAux` is duplicate-free. -/
theorem nodup_dedupFirstAux (xs : List String) (seen : List String) :
    (dedupFirstAux seen xs).Nodup := by
  induction xs generalizing seen with
  | nil => exact List.nodup_nil
  | cons x xs ih =>
    by_cases hx : x ∈ seen
    · simpa [dedupFirstAux, if_pos hx] using ih seen
    · simp only [dedupFirstAux, if_neg hx, List.nodup_cons]
      refine ⟨fun hmem => ?_, ih (x :: seen)⟩
      exact ((mem_dedupFirstAux xs (x :: seen) x).mp hmem).2 (List.mem_cons_self x seen)

/-- The output of `dedupFirst` is duplicate-free. -/
theorem nodup_dedupFirst (xs : List String) : (dedupFirst xs).Nodup :=
  nodup_dedupFirstAux xs []

/-- Deduplication is idempotent. -/
theorem dedupFirst_idem (xs : List String) :
    dedupFirst (dedupFirst xs) = dedupFirst xs :=
  dedupFirst_of_nodup (dedupFirst xs) (nodup_dedupFirst xs)

/-! ## Idempotence of the per-field merge policies -/

/-- Any policy applied to a defined local value returns the local value for
scalar fields. -/
theorem applyMergePolicyScalar_local {T : Type} (g : Option T) (lv : T)
    (pol : MergePolicy) : applyMergePolicyScalar g (some lv) pol = some lv := by
  cases g <;> cases pol <;> rfl

/-- Re-merging the merged value with the same local value is the identity for
scalar fields. -/
theorem applyMergePolicyScalar_idem {T : Type} (g l : Option T) (pol : MergePolicy) :
    applyMergePolicyScalar (applyMergePolicyScalar g l pol) l pol =
      applyMergePolicyScalar g l pol := by
  cases l with
  | none => rfl
  | some lv => rw [applyMergePolicyScalar_local, applyMergePolicyScalar_local]

/-- Override on an array field returns the local value when it is defined. -/
theorem applyMergePolicyArr_override_local (g : Option (List String)) (lv : List String) :
    applyMergePolicyArr g (some lv) MergePolicy.override = some lv := by
  cases g <;> rfl

/-- Re-merging is the identity for array fields under the override policy. -/
theorem applyMergePolicyArr_override_idem (g l : Option (List String)) :
    applyMergePolicyArr (applyMergePolicyArr g l MergePolicy.override) l MergePolicy.override =
      applyMergePolicyArr g l MergePolicy.override := by
  cases l with
  | none => rfl
  | some lv => rw [applyMergePolicyArr_override_local, applyMergePolicyArr_override_local]

/-- Re-merging is the identity for array fields under the union policy,
provided the local array is duplicate-free. -/
theorem applyMergePolicyArr_union_idem (g l : Option (List String))
    (h : (l.getD []).Nodup) :
    applyMergePolicyArr (applyMergePolicyArr g l MergePolicy.union) l MergePolicy.union =
      applyMergePolicyArr g l MergePolicy.union := by
  cases l with
  | none => rfl
  | some xs =>
    have hnd : xs.Nodup := h
    cases g with
    | none =>
      show applyMergePolicyArr (some xs) (some xs) MergePolicy.union = some xs
      show some (dedupFirst (xs ++ xs)) = some xs
      rw [dedupFirst_append_of_subset xs xs fun y hy => hy, dedupFirst_of_nodup xs hnd]
    | some gs =>
      show applyMergePolicyArr (some (dedupFirst (gs ++ xs))) (some xs) MergePolicy.union =
        some (dedupFirst (gs ++ xs))
      show some (dedupFirst (dedupFirst (gs ++ xs) ++ xs)) = some (dedupFirst (gs ++ xs))
      rw [dedupFirst_append_of_subset (dedupFirst (gs ++ xs)) xs
        (fun y hy => (mem_dedupFirst (gs ++ xs) y).mpr (List.mem_append_right gs hy)),
        dedupFirst_idem]

/-- Re-merging is the identity for number fields under the min policy. -/
theorem applyMergePolicyNum_min_idem (g l : Option ℚ) :
    applyMergePolicyNum (applyMergePolicyNum g l MergePolicy.min) l MergePolicy.min =
      applyMergePolicyNum g l MergePolicy.min := by
  cases l with
  | none => rfl
  | some lv =>
    cases g with
    | none =>
      show some (min lv lv) = some lv
      rw [min_self]
    | some gv =>
      show some (min (min gv lv) lv) = some (min gv lv)
      rw [min_assoc, min_self]

/-! ## Claim C5: idempotence of the profile merge -/

/-- Local constraint document whose union-policy compliance array holds a
duplicate value. -/
def c5LocalC : Constraints := { compliance := some ["SOC2", "SOC2"] }

/-- C5 counterexample: with no global compliance and a local compliance array
containing a duplicate, the first merge returns the local array verbatim
while re-merging the result with the same local document deduplicates it, so
merge(merge(G,L),L) differs from merge(G,L). -/
theorem c5_idempotence_counterexample :
    mergeConstraints (some (mergeConstraints none (some c5LocalC))) (some c5LocalC) ≠
      mergeConstraints none (some c5LocalC) := by decide

/-- C5 amended: the profile merge is idempotent -
`merge(merge(G,L), L) = merge(G,L)` on both the constraint and the preference
block - provided every union-policy array of the local document
(compliance, dataResidency, mustHaveFeatures, dealbreakers,
requiredSdkLanguages, avoidProviders) is duplicate-free; and union always
produces the deduplicated concatenation of the two arrays with the global
items first and the local items appended. -/
theorem c5_merge_idempotent
    (gc lc : Option Constraints) (gp lp : Option Preferences)
    (h1 : ((lc.bind fun c => c.compliance).getD []).Nodup)
    (h2 : ((lc.bind fun c => c.dataResidency).getD []).Nodup)
    (h3 : ((lc.bind fun c => c.mustHaveFeatures).getD []).Nodup)
    (h4 : ((lc.bind fun c => c.dealbreakers).getD []).Nodup)
    (h5 : ((lc.bind fun c => c.requiredSdkLanguages).getD []).Nodup)
    (h6 : ((lp.bind fun p => p.avoidProviders).getD []).Nodup) :
    mergeConstraints (some (mergeConstraints gc lc)) lc = mergeConstraints gc lc ∧
    mergePreferences (some (mergePreferences gp lp)) lp = mergePreferences gp lp ∧
    (∀ gs ls, applyMergePolicyArr (some gs) (some ls) MergePolicy.union =
      some (dedupFirst (gs ++ ls))) := by
  refine ⟨?_, ?_, fun gs ls => rfl⟩
  · simp only [mergeConstraints, Option.some_bind, Constraints.mk.injEq]
    refine ⟨applyMergePolicyArr_union_idem _ _ h1, ?_,
      applyMergePolicyScalar_idem _ _ _,
      applyMergePolicyArr_union_idem _ _ h2,
      applyMergePolicyArr_union_idem _ _ h3,
      applyMergePolicyArr_union_idem _ _ h4,
      applyMergePolicyArr_union_idem _ _ h5,
      applyMergePolicyScalar_idem _ _ _⟩
    by_cases hg : (gc.bind fun c => c.budgetCeiling).isSome = true
    · simp [hg, applyMergePolicyNum_min_idem]
    · by_cases hl : (lc.bind fun c => c.budgetCeiling).isSome = true
      · simp [hg, hl, applyMergePolicyNum_min_idem]
      · simp [hg, hl]
  · simp only [mergePreferences, Option.some_bind, Preferences.mk.injEq]
    exact ⟨applyMergePolicyArr_override_idem _ _,
      applyMergePolicyScalar_idem _ _ _,
      applyMergePolicyArr_override_idem _ _,
      applyMergePolicyArr_union_idem _ _ h6⟩

/-- Global constraint fixture for the idempotence witness. -/
def c5WConstraintsG : Constraints :=
  { compliance := some ["SOC2"], budgetCeiling := some { monthly := some 100 } }

/-- Local constraint fixture (duplicate-free arrays) for the idempotence
witness. -/
def c5WConstraintsL : Constraints :=
  { compliance := some ["HIPAA", "SOC2"], budgetCeiling := some { monthly := some 50 } }

/-- Global preference fixture for the idempotence witness. -/
def c5WPrefsG : Preferences := { avoidProviders := some ["SendGrid"] }

/-- Local preference fixture for the idempotence witness. -/
def c5WPrefsL : Preferences :=
  { prioritize := some ["dx"], avoidProviders := some ["Mailgun"] }

/-- Witness for the amended C5 at concrete duplicate-free documents. -/
theorem c5_merge_idempotent_witness :
    mergeConstraints (some (mergeConstraints (some c5WConstraintsG) (some c5WConstraintsL)))
        (some c5WConstraintsL) =
      mergeConstraints (some c5WConstraintsG) (some c5WConstraintsL) ∧
    mergePreferences (some (mergePreferences (some c5WPrefsG) (some c5WPrefsL)))
        (some c5WPrefsL) =
      mergePreferences (some c5WPrefsG) (some c5WPrefsL) := by
  have h := c5_merge_idempotent (some c5WConstraintsG) (some c5WConstraintsL)
    (some c5WPrefsG) (some c5WPrefsL)
    (by decide) (by decide) (by decide) (by decide) (by decide) (by decide)
  exact ⟨h.1, h.2.1⟩

/-! ## Local profile loading (src/profile.ts) and claim C8

File existence and JSON parsing are external I/O; they enter as an optional
file content and a parse function.  `loadLocalProfile` returns null both when
the file is missing and when `JSON.parse` throws (the catch block); the
legacy-history migration it may trigger touches only the decision store and
is not part of the returned value. -/

/-- Local project profile document (src/types.ts `ProjectProfile`); the
file-metadata timestamps are not consumed by the verified operations. -/
structure ProjectProfile where
  project : ProjectContext := {}
  constraints : Option Constraints := none
  preferences : Option Preferences := none
  shareToGlobalTaste : Bool := true
  deriving DecidableEq

/-- Global defaults document (src/types.ts `GlobalDefaults`). -/
structure GlobalDefaults where
  constraints : Option Constraints := none
  preferences : Option Preferences := none
  deriving DecidableEq

/-- src/profile.ts `loadLocalProfile`: missing file or a parse failure both
yield null. -/
def loadLocalProfile (file : Option String)
    (parse : String → Option ProjectProfile) : Option ProjectProfile :=
  match file with
  | none => none
  | some content => parse content

/-- src/profile.ts `loadEffectiveProfile`: merge the constraint and
preference blocks of the two documents and take the project context from the
local document.  The project auto-registration side effect and the returned
provenance details are not consumed by the verified claims. -/
def loadEffectiveProfile (globalDefaults : Option GlobalDefaults)
    (localProfile : Option ProjectProfile) : EffectiveProfile :=
  { project := localProfile.map (fun lp => lp.project)
    constraints := mergeConstraints (globalDefaults.bind fun g => g.constraints)
      (localProfile.bind fun lp => lp.constraints)
    preferences := mergePreferences (globalDefaults.bind fun g => g.preferences)
      (localProfile.bind fun lp => lp.preferences) }

/-- C8: when the local profile file is missing or fails to parse,
`loadLocalProfile` yields null and the effective configuration is computed
exactly as if no local document existed; no error is raised (the embedding is
a total function). -/
theorem c8_malformed_local_profile (g : Option GlobalDefaults)
    (parse : String → Option ProjectProfile) (file : Option String) :
    (file = none →
      loadLocalProfile file parse = none ∧
      loadEffectiveProfile g (loadLocalProfile file parse) = loadEffectiveProfile g none) ∧
    (∀ s, file = some s → parse s = none →
      loadLocalProfile file parse = none ∧
      loadEffectiveProfile g (loadLocalProfile file parse) = loadEffectiveProfile g none) := by
  constructor
  · rintro rfl
    exact ⟨rfl, rfl⟩
  · rintro s rfl hp
    simp [loadLocalProfile, hp]

/-- Witness for C8: a concrete global document, a parse function that fails
on the given content, and a present-but-corrupt file. -/
theorem c8_malformed_local_profile_witness :
    loadLocalProfile (some "not-json") (fun _ => none) = none ∧
    loadEffectiveProfile (some { constraints := some c5WConstraintsG })
        (loadLocalProfile (some "not-json") (fun _ => none)) =
      loadEffectiveProfile (some { constraints := some c5WConstraintsG }) none :=
  (c8_malformed_local_profile (some { constraints := some c5WConstraintsG })
    (fun _ => none) (some "not-json")).2 "not-json" rfl rfl

/-! ## Decision ledger (src/decisions.ts) and claim C10

The decisions.json file of a project is modelled by its three observable
states: missing, unparseable, or holding a parsed document.  `randomUUID()`
and `new Date().toISOString()` are ambient inputs passed explicitly. -/

/-- Decision record (src/types.ts `UserDecision`). -/
structure UserDecision where
  id : String
  api : String
  category : String
  outcome : Outcome
  context : Option String := none
  notes : Option String := none
  notesPrivate : Bool := false
  date : String := ""
  recordedBy : String := ""
  toolVersion : String := ""
  deriving DecidableEq

/-- Parsed decisions.json document (src/types.ts `ProjectDecisions`). -/
structure ProjectDecisions where
  schemaVersion : String := ""
  createdAt : String := ""
  updatedAt : String := ""
  decisions : List UserDecision := []
  deriving DecidableEq

/-- Observable states of a decisions.json file on disk. -/
inductive DecisionsFile where
  | missing
  | corrupt
  | valid (doc : ProjectDecisions)
  deriving DecidableEq

/-- src/decisions.ts `createEmptyDecisions`. -/
def createEmptyDecisions (nowIso : String) : ProjectDecisions :=
  { schemaVersion := "1.0.0", createdAt := nowIso, updatedAt := nowIso, decisions := [] }

/-- src/decisions.ts `loadProjectDecisions`: a missing file and a file whose
parse throws both load as a fresh empty document; an absent schema version is
filled in. -/
def loadProjectDecisions (file : DecisionsFile) (nowIso : String) : ProjectDecisions :=
  match file with
  | DecisionsFile.missing => createEmptyDecisions nowIso
  | DecisionsFile.corrupt => createEmptyDecisions nowIso
  | DecisionsFile.valid doc =>
    if doc.schemaVersion = "" then { doc with schemaVersion := "1.0.0" } else doc

/-- src/decisions.ts `saveProjectDecisions`: stamp `updatedAt` and write the
whole document. -/
def saveProjectDecisions (doc : ProjectDecisions) (nowIso : String) : DecisionsFile :=
  DecisionsFile.valid { doc with updatedAt := nowIso }

/-- Input of `recordDecision`. -/
structure RecordInput where
  api : String
  category : String
  outcome : Outcome
  context : Option String := none
  notes : Option String := none
  notesPrivate : Option Bool := none
  deriving DecidableEq

/-- src/decisions.ts `recordDecision`: load, append one new decision, save.
`newId` is the `randomUUID()` draw and `nowIso` the clock reading. -/
def recordDecision (file : DecisionsFile) (input : RecordInput)
    (newId : String) (nowIso : String) : UserDecision × DecisionsFile :=
  let decisions := loadProjectDecisions file nowIso
  let decision : UserDecision :=
    { id := newId
      api := input.api
      category := input.category
      outcome := input.outcome
      context := input.context
      notes := input.notes
      notesPrivate := input.notesPrivate.getD false
      date := nowIso
      recordedBy := "agent"
      toolVersion := "1.0.0" }
  (decision, saveProjectDecisions { decisions with decisions := decisions.decisions ++ [decision] } nowIso)

/-- Partial update fields of src/decisions.ts `updateDecision`. -/
structure DecisionUpdates where
  outcome : Option Outcome := none
  context : Option String := none
  notes : Option String := none
  notesPrivate : Option Bool := none
  deriving DecidableEq

/-- Apply the four `if (updates.x !== undefined)` assignments. -/
def applyDecisionUpdates (d : UserDecision) (u : DecisionUpdates) : UserDecision :=
  { d with
    outcome := u.outcome.getD d.outcome
    context := match u.context with
      | some c => some c
      | none => d.context
    notes := match u.notes with
      | some n => some n
      | none => d.notes
    notesPrivate := u.notesPrivate.getD d.notesPrivate }

/-- In-place mutation of the first decision found by id. -/
def updateFirstById (decisionId : String) (u : DecisionUpdates) :
    List UserDecision → List UserDecision
  | [] => []
  | d :: rest =>
    if d.id == decisionId then applyDecisionUpdates d u :: rest
    else d :: updateFirstById decisionId u rest

/-- src/decisions.ts `updateDecision`: load, look the decision up by id,
return null without saving when it is absent, otherwise mutate it and save. -/
def updateDecision (file : DecisionsFile) (decisionId : String)
    (updates : DecisionUpdates) (nowIso : String) : Option UserDecision × DecisionsFile :=
  let decisions := loadProjectDecisions file nowIso
  match decisions.decisions.find? (fun d => d.id == decisionId) with
  | none => (none, file)
  | some d =>
    (some (applyDecisionUpdates d updates),
      saveProjectDecisions
        { decisions with decisions := updateFirstById decisionId updates decisions.decisions }
        nowIso)

/-- C10: when no decision with the requested id exists in the loaded store,
`updateDecision` returns null and the file is left exactly as it was - no
write happens and no decision is modified. -/
theorem c10_update_missing_id (file : DecisionsFile) (decisionId : String)
    (updates : DecisionUpdates) (nowIso : String)
    (h : (loadProjectDecisions file nowIso).decisions.find?
      (fun d => d.id == decisionId) = none) :
    updateDecision file decisionId updates nowIso = (none, file) := by
  simp [updateDecision, h]

/-- Fixture decision for the ledger claims. -/
def c10Decision : UserDecision :=
  { id := "dec-1", api := "Resend", category := "email", outcome := Outcome.positive }

/-- Fixture decisions file holding one decision. -/
def c10File : DecisionsFile :=
  DecisionsFile.valid { schemaVersion := "1.0.0", decisions := [c10Decision] }

/-- Witness for C10 at a concrete store and an id that is not present. -/
theorem c10_update_missing_id_witness :
    updateDecision c10File "dec-2" {} "2024-06-01T00:00:00.000Z" = (none, c10File) :=
  c10_update_missing_id c10File "dec-2" {} "2024-06-01T00:00:00.000Z" (by decide)

/-! ## Pattern inference engine (src/patterns.ts)

The engine is written over an arbitrary linear ordered field so that it can
be read over ℚ (executable, for concrete witnesses) and over ℝ (where the
exponential decay weight lives).  The decay weight of a decision enters as a
function parameter, exactly as `calculateDecayWeight(decision.date, ...)` is
the only use of the date in the accumulation. -/

/-- Code-unit comparison of two character lists (the ordering behind
`localeCompare` on the ASCII dates used by the ledger). -/
def charListLe : List Char → List Char → Bool
  | [], _ => true
  | _ :: _, [] => false
  | a :: as, b :: bs =>
    if a.toNat < b.toNat then true
    else if b.toNat < a.toNat then false
    else charListLe as bs

/-- String comparison used for `localeCompare`-based sorts. -/
def strLe (a b : String) : Bool :=
  charListLe a.data b.data

/-- Insertion into a sorted list under a boolean comparator. -/
def insertSorted {β : Type} (le : β → β → Bool) (x : β) : List β → List β
  | [] => [x]
  | y :: ys => if le x y then x :: y :: ys else y :: insertSorted le x ys

/-- Insertion sort under a boolean comparator, modelling `Array.sort`. -/
def sortByBool {β : Type} (le : β → β → Bool) : List β → List β
  | [] => []
  | x :: xs => insertSorted le x (sortByBool le xs)

/-- src/decisions.ts `truncateNotes`. -/
def truncateNotes (notes : Option String) : Option String :=
  match notes with
  | none => none
  | some n => if n.length ≤ 100 then some n else some (⟨n.data.take 97⟩ ++ "...")

/-- src/decisions.ts `toExperienceSummary`: private notes are suppressed,
public ones truncated. -/
def toExperienceSummary (decision : UserDecision) (projectName : String) : ExperienceSummary :=
  { id := decision.id
    project := projectName
    api := decision.api
    category := decision.category
    outcome := decision.outcome
    context := decision.context
    noteSummary := if decision.notesPrivate then none else truncateNotes decision.notes
    date := decision.date }

/-- One element of the list produced by src/decisions.ts `loadAllDecisions`. -/
structure DecEntry where
  decision : UserDecision
  projectName : String := ""
  projectPath : String := ""
  deriving DecidableEq

/-- src/decisions.ts `loadAllDecisions` for one opted-in project: its parsed
decisions, newest first (`b.date.localeCompare(a.date)`).  Iteration over the
cross-project registry is external I/O. -/
def loadAllDecisionsM (file : DecisionsFile) (projectName : String)
    (nowIso : String) : List DecEntry :=
  sortByBool (fun a b => strLe b.decision.date a.decision.date)
    ((loadProjectDecisions file nowIso).decisions.map
      (fun d => { decision := d, projectName := projectName }))

/-- src/patterns.ts `detectSignals`: structured signals from the outcome plus
coarse substring classification of the free-text context.  The source guards
the context block with a truthiness test; an empty context matches none of
the vocabulary, so the guard is implied. -/
def detectSignals (decision : UserDecision) : List String :=
  (if decision.outcome = Outcome.positive then
    ["prefers:" ++ decision.api ++ ":" ++ decision.category,
     "positive:" ++ decision.category]
  else []) ++
  (if decision.outcome = Outcome.negative then
    ["dislikes:" ++ decision.api ++ ":" ++ decision.category,
     "negative:" ++ decision.category]
  else []) ++
  (match decision.context with
   | none => []
   | some ctx =>
     let lowerContext := strToLower ctx
     (if strIncludes lowerContext "high volume" || strIncludes lowerContext "scale" then
       ["context:high-volume"] else []) ++
     (if strIncludes lowerContext "startup" || strIncludes lowerContext "mvp" then
       ["context:early-stage"] else []) ++
     (if strIncludes lowerContext "enterprise" || strIncludes lowerContext "compliance" then
       ["context:enterprise"] else []) ++
     (if strIncludes lowerContext "migration" || strIncludes lowerContext "switching" then
       ["context:migration"] else []))

/-- One evidence entry pushed by the accumulation loop. -/
structure EvidenceEntry where
  id : String
  outcome : Outcome
  date : String
  deriving DecidableEq

/-- src/patterns.ts `PatternAccumulator`. -/
structure PatternAccumulator (α : Type) where
  signal : String
  evidence : List EvidenceEntry
  rawScore : α
  deriving DecidableEq

/-- The source `Map<string, PatternAccumulator>` as an association list in
insertion order. -/
abbrev SigMap (α : Type) : Type := List (String × PatternAccumulator α)

/-- JS `Map.get`. -/
def mapGet {α : Type} (m : SigMap α) (sig : String) : Option (PatternAccumulator α) :=
  match m with
  | [] => none
  | (k, v) :: rest => if k = sig then some v else mapGet rest sig

/-- JS `Map.set`: replace the existing entry in place or append a new one. -/
def mapSet {α : Type} (m : SigMap α) (sig : String) (acc : PatternAccumulator α) : SigMap α :=
  match m with
  | [] => [(sig, acc)]
  | (k, v) :: rest => if k = sig then (sig, acc) :: rest else (k, v) :: mapSet rest sig acc

/-- Score contribution of one outcome: +1 positive, -0.5 negative, 0
neutral. -/
def scoreContribution {α : Type} [LinearOrderedField α] (o : Outcome) : α :=
  match o with
  | Outcome.positive => 1
  | Outcome.negative => -(1 / 2)
  | Outcome.neutral => 0

/-- Inner loop body of `computePatterns`: push the evidence entry and add
`decayWeight * scoreContribution` to the raw score of the signal. -/
def addSignal {α : Type} [LinearOrderedField α] (decayWeight : α)
    (decision : UserDecision) (m : SigMap α) (signal : String) : SigMap α :=
  let existing := (mapGet m signal).getD { signal := signal, evidence := [], rawScore := 0 }
  mapSet m signal
    { existing with
      evidence := existing.evidence ++
        [{ id := decision.id, outcome := decision.outcome, date := decision.date }]
      rawScore := existing.rawScore + decayWeight * scoreContribution decision.outcome }

/-- Outer loop body: process every signal of one decision. -/
def applyDecision {α : Type} [LinearOrderedField α] (w : UserDecision → α)
    (m : SigMap α) (decision : UserDecision) : SigMap α :=
  (detectSignals decision).foldl (addSignal (w decision) decision) m

/-- The accumulation phase of `computePatterns` over all loaded decisions. -/
def buildSignalMap {α : Type} [LinearOrderedField α] (w : UserDecision → α)
    (allDecisions : List DecEntry) : SigMap α :=
  allDecisions.foldl (fun m e => applyDecision w m e.decision) []

/-- Conversion of one accumulator entry to a scored pattern: confidence is
`min(1, max(0, rawScore / max(evidenceCount, 3)))`, entries below the 0.2
threshold are skipped (`continue`), evidence is sorted by date. -/
def entryToPattern {α : Type} [LinearOrderedField α]
    (entry : String × PatternAccumulator α) : Option (ScoredPattern α) :=
  let accumulator := entry.2
  let maxPossibleScore := accumulator.evidence.length
  let confidence : α := min 1 (max 0 (accumulator.rawScore / max (maxPossibleScore : α) 3))
  if confidence < 1 / 5 then none
  else
    let sortedEvidence := sortByBool (fun a b => strLe a.date b.date) accumulator.evidence
    some
      { signal := entry.1
        confidence := confidence
        evidenceIds := sortedEvidence.map (fun e => e.id)
        firstObserved := ((sortedEvidence.head?).map (fun e => e.date)).getD ""
        lastReinforced := ((sortedEvidence.getLast?).map (fun e => e.date)).getD "" }

/-- src/types.ts `ComputedTaste`. -/
structure ComputedTaste (α : Type) where
  experiences : List ExperienceSummary
  patterns : List (ScoredPattern α)
  computedAt : String
  deriving DecidableEq

/-- The pure body of src/patterns.ts `computePatterns`: accumulate signals,
convert to patterns dropping sub-threshold confidence, sort by confidence
descending, and pair with the experience summaries.  The `randomUUID()`
pattern ids are external randomness and are not modelled. -/
def computePatternsPure {α : Type} [LinearOrderedField α] (w : UserDecision → α)
    (allDecisions : List DecEntry) (nowIso : String) : ComputedTaste α :=
  let signalMap := buildSignalMap w allDecisions
  let patterns := signalMap.filterMap entryToPattern
  let patternsSorted := sortByBool (fun a b => decide (b.confidence ≤ a.confidence)) patterns
  let experiences := allDecisions.map (fun e => toExperienceSummary e.decision e.projectName)
  { experiences := experiences, patterns := patternsSorted, computedAt := nowIso }

/-- src/patterns.ts `calculateDecayWeight`:
`0.5 ^ (ageDays / halfLifeDays)` with the age in fractional days, over ℝ.
`dateMs` is the external `new Date(date).getTime()` parse. -/
noncomputable def calculateDecayWeight (dateMs : String → ℝ) (now : ℝ)
    (halfLifeDays : ℝ) (date : String) : ℝ :=
  let ageMs := now - dateMs date
  let ageDays := ageMs / (1000 * 60 * 60 * 24)
  (1 / 2 : ℝ) ^ (ageDays / halfLifeDays)

/-- Number of times a signal is emitted over a decision list - the evidence
count of that signal. -/
def signalEvidenceCount (sig : String) (allDecisions : List DecEntry) : ℕ :=
  (allDecisions.map (fun e => (detectSignals e.decision).count sig)).sum

/-- The specification-side raw score of a signal: the sum over contributing
decisions of decay weight times outcome contribution. -/
def specRawScore {α : Type} [LinearOrderedField α] (w : UserDecision → α)
    (sig : String) (allDecisions : List DecEntry) : α :=
  (allDecisions.map (fun e =>
    ((detectSignals e.decision).count sig : α) *
      (w e.decision * scoreContribution e.decision.outcome))).sum

/-! ## Correctness of the signal-map accumulation -/

/-- Raw score stored in the map for a signal, 0 when absent. -/
def rawOf {α : Type} [LinearOrderedField α] (m : SigMap α) (sig : String) : α :=
  ((mapGet m sig).map (fun a => a.rawScore)).getD 0

/-- Evidence count stored in the map for a signal, 0 when absent. -/
def evCountOf {α : Type} (m : SigMap α) (sig : String) : ℕ :=
  ((mapGet m sig).map (fun a => a.evidence.length)).getD 0

/-- Reading back the key just set. -/
theorem mapGet_mapSet_self {α : Type} (m : SigMap α) (sig : String)
    (acc : PatternAccumulator α) : mapGet (mapSet m sig acc) sig = some acc := by
  induction m with
  | nil => simp [mapGet, mapSet]
  | cons kv rest ih =>
    by_cases h : kv.1 = sig
    · simp [mapGet, mapSet, h]
    · simp [mapGet, mapSet, h, ih]

/-- Setting one key does not change another. -/
theorem mapGet_mapSet_ne {α : Type} (m : SigMap α) (sig k : String)
    (acc : PatternAccumulator α) (h : k ≠ sig) :
    mapGet (mapSet m sig acc) k = mapGet m k := by
  induction m with
  | nil =>
    show mapGet [(sig, acc)] k = mapGet [] k
    have h1 : ¬sig = k := fun hh => h hh.symm
    simp only [mapGet, if_neg h1]
  | cons kv rest ih =>
    obtain ⟨k1, v1⟩ := kv
    show mapGet (if k1 = sig then (sig, acc) :: rest else (k1, v1) :: mapSet rest sig acc) k =
      mapGet ((k1, v1) :: rest) k
    by_cases hk : k1 = sig
    · rw [if_pos hk]
      have h1 : ¬sig = k := fun hh => h hh.symm
      have h2 : ¬k1 = k := fun hh => h1 (hk.symm.trans hh)
      simp only [mapGet, if_neg h1, if_neg h2]
    · rw [if_neg hk]
      simp only [mapGet]
      by_cases hk2 : k1 = k
      · rw [if_pos hk2, if_pos hk2]
      · rw [if_neg hk2, if_neg hk2, ih]

/-- Effect of one `addSignal` step on the stored raw score. -/
theorem rawOf_addSignal {α : Type} [LinearOrderedField α] (wv : α)
    (d : UserDecision) (m : SigMap α) (s2 s : String) :
    rawOf (addSignal wv d m s2) s =
      rawOf m s + (if s2 = s then wv * scoreContribution d.outcome else 0) := by
  by_cases h : s2 = s
  · subst h
    simp only [addSignal, rawOf, mapGet_mapSet_self, if_pos rfl]
    cases hm : mapGet m s2 <;> simp [hm]
  · simp only [addSignal, rawOf,
      mapGet_mapSet_ne m s2 s _ (fun hh => h hh.symm), if_neg h, add_zero]

/-- Effect of one `addSignal` step on the stored evidence count. -/
theorem evCountOf_addSignal {α : Type} [LinearOrderedField α] (wv : α)
    (d : UserDecision) (m : SigMap α) (s2 s : String) :
    evCountOf (addSignal wv d m s2) s =
      evCountOf m s + (if s2 = s then 1 else 0) := by
  by_cases h : s2 = s
  · subst h
    simp only [addSignal, evCountOf, mapGet_mapSet_self, if_pos rfl]
    cases hm : mapGet m s2 <;> simp [hm]
  · simp only [addSignal, evCountOf,
      mapGet_mapSet_ne m s2 s _ (fun hh => h hh.symm), if_neg h, add_zero]

/-- Effect of the inner signal loop on the stored raw score: each occurrence
of the signal adds `decayWeight * contribution`. -/
theorem rawOf_foldl_signals {α : Type} [LinearOrderedField α] (wv : α)
    (d : UserDecision) (sigs : List String) (m : SigMap α) (s : String) :
    rawOf (sigs.foldl (addSignal wv d) m) s =
      rawOf m s + (sigs.count s : α) * (wv * scoreContribution d.outcome) := by
  induction sigs generalizing m with
  | nil => simp
  | cons s2 sigs ih =>
    rw [List.foldl_cons, ih, rawOf_addSignal]
    by_cases h : s2 = s
    · subst h
      rw [if_pos rfl, List.count_cons_self]
      push_cast
      ring
    · rw [if_neg h, List.count_cons_of_ne (fun hh => h hh.symm)]
      ring

/-- Effect of the inner signal loop on the stored evidence count. -/
theorem evCountOf_foldl_signals {α : Type} [LinearOrderedField α] (wv : α)
    (d : UserDecision) (sigs : List String) (m : SigMap α) (s : String) :
    evCountOf (sigs.foldl (addSignal wv d) m) s =
      evCountOf m s + sigs.count s := by
  induction sigs generalizing m with
  | nil => simp
  | cons s2 sigs ih =>
    rw [List.foldl_cons, ih, evCountOf_addSignal]
    by_cases h : s2 = s
    · subst h
      rw [if_pos rfl, List.count_cons_self]
      omega
    · rw [if_neg h, List.count_cons_of_ne (fun hh => h hh.symm)]
      omega

/-- The accumulated raw score of every signal equals the direct sum over the
decision list. -/
theorem rawOf_buildSignalMap {α : Type} [LinearOrderedField α]
    (w : UserDecision → α) (ds : List DecEntry) (s : String) :
    rawOf (buildSignalMap w ds) s = specRawScore w s ds := by
  suffices h : ∀ m : SigMap α,
      rawOf (ds.foldl (fun m e => applyDecision w m e.decision) m) s =
        rawOf m s + specRawScore w s ds by
    have := h []
    simpa [buildSignalMap, rawOf, mapGet] using this
  induction ds with
  | nil => intro m; simp [specRawScore]
  | cons e ds ih =>
    intro m
    rw [List.foldl_cons, ih]
    simp only [applyDecision, specRawScore, List.map_cons, List.sum_cons]
    rw [rawOf_foldl_signals]
    ring

/-- The accumulated evidence count of every signal equals the direct count
over the decision list. -/
theorem evCountOf_buildSignalMap {α : Type} [LinearOrderedField α]
    (w : UserDecision → α) (ds : List DecEntry) (s : String) :
    evCountOf (buildSignalMap w ds) s = signalEvidenceCount s ds := by
  suffices h : ∀ m : SigMap α,
      evCountOf (ds.foldl (fun m e => applyDecision w m e.decision) m) s =
        evCountOf m s + signalEvidenceCount s ds by
    have := h []
    simpa [buildSignalMap, evCountOf, mapGet] using this
  induction ds with
  | nil => intro m; simp [signalEvidenceCount]
  | cons e ds ih =>
    intro m
    rw [List.foldl_cons, ih]
    simp only [applyDecision, signalEvidenceCount, List.map_cons, List.sum_cons]
    rw [evCountOf_foldl_signals]
    omega

/-- Keys of a signal map. -/
def mapKeys {α : Type} (m : SigMap α) : List String :=
  m.map (fun kv => kv.1)

/-- Keys after a `mapSet`. -/
theorem mem_mapKeys_mapSet {α : Type} (m : SigMap α) (sig : String)
    (acc : PatternAccumulator α) (x : String) :
    x ∈ mapKeys (mapSet m sig acc) ↔ x ∈ mapKeys m ∨ x = sig := by
  induction m with
  | nil => simp [mapKeys, mapSet]
  | cons kv rest ih =>
    obtain ⟨k1, v1⟩ := kv
    show x ∈ mapKeys (if k1 = sig then (sig, acc) :: rest else (k1, v1) :: mapSet rest sig acc) ↔ _
    by_cases hk : k1 = sig
    · subst hk
      rw [if_pos rfl]
      simp only [mapKeys, List.map_cons, List.mem_cons]
      tauto
    · rw [if_neg hk]
      simp only [mapKeys, List.map_cons, List.mem_cons]
      rw [show List.map (fun kv => kv.1) (mapSet rest sig acc) = mapKeys (mapSet rest sig acc) from rfl,
        ih]
      show _ ∨ x ∈ mapKeys rest ∨ _ ↔ (_ ∨ x ∈ mapKeys rest) ∨ _
      tauto

/-- `mapSet` preserves duplicate-freeness of the keys. -/
theorem mapKeys_nodup_mapSet {α : Type} (m : SigMap α) (sig : String)
    (acc : PatternAccumulator α) (h : (mapKeys m).Nodup) :
    (mapKeys (mapSet m sig acc)).Nodup := by
  induction m with
  | nil => simp [mapKeys, mapSet]
  | cons kv rest ih =>
    obtain ⟨k1, v1⟩ := kv
    have h2 := List.nodup_cons.mp h
    show (mapKeys (if k1 = sig then (sig, acc) :: rest else (k1, v1) :: mapSet rest sig acc)).Nodup
    by_cases hk : k1 = sig
    · subst hk
      rw [if_pos rfl]
      exact h
    · rw [if_neg hk]
      refine List.nodup_cons.mpr ⟨fun hmem => ?_, ih h2.2⟩
      rcases (mem_mapKeys_mapSet rest sig acc k1).mp hmem with h3 | h3
      · exact h2.1 h3
      · exact hk h3

/-- `addSignal` preserves duplicate-freeness of the keys. -/
theorem mapKeys_nodup_addSignal {α : Type} [LinearOrderedField α] (wv : α)
    (d : UserDecision) (m : SigMap α) (s : String) (h : (mapKeys m).Nodup) :
    (mapKeys (addSignal wv d m s)).Nodup :=
  mapKeys_nodup_mapSet m s _ h

/-- The whole signal-map accumulation keeps the keys duplicate-free. -/
theorem mapKeys_nodup_buildSignalMap {α : Type} [LinearOrderedField α]
    (w : UserDecision → α) (ds : List DecEntry) :
    (mapKeys (buildSignalMap w ds)).Nodup := by
  suffices h : ∀ m : SigMap α, (mapKeys m).Nodup →
      (mapKeys (ds.foldl (fun m e => applyDecision w m e.decision) m)).Nodup by
    exact h [] (by simp [mapKeys])
  induction ds with
  | nil => intro m hm; exact hm
  | cons e ds ih =>
    intro m hm
    rw [List.foldl_cons]
    refine ih _ ?_
    show (mapKeys (applyDecision w m e.decision)).Nodup
    rw [applyDecision]
    generalize detectSignals e.decision = sigs
    induction sigs generalizing m with
    | nil => exact hm
    | cons s2 sigs ih2 =>
      rw [List.foldl_cons]
      exact ih2 _ (mapKeys_nodup_addSignal _ _ _ _ hm)

/-- With duplicate-free keys, a map entry is recovered by `mapGet`. -/
theorem mapGet_of_mem {α : Type} (m : SigMap α) (sig : String)
    (acc : PatternAccumulator α) (hnd : (mapKeys m).Nodup)
    (hmem : (sig, acc) ∈ m) : mapGet m sig = some acc := by
  induction m with
  | nil => cases hmem
  | cons kv rest ih =>
    obtain ⟨k1, v1⟩ := kv
    have h2 := List.nodup_cons.mp hnd
    rcases List.mem_cons.mp hmem with heq | hmem2
    · injection heq with ha hb
      subst ha
      subst hb
      simp [mapGet]
    · have hsig : sig ∈ mapKeys rest := by
        have := List.mem_map_of_mem (fun kv : String × PatternAccumulator α => kv.1) hmem2
        simpa [mapKeys] using this
      have hne : ¬k1 = sig := fun hh => h2.1 (hh ▸ hsig)
      simp only [mapGet, if_neg hne]
      exact ih h2.2 hmem2

/-- Membership through sorted insertion. -/
theorem mem_insertSorted {β : Type} (le : β → β → Bool) (x y : β) (l : List β) :
    y ∈ insertSorted le x l ↔ y = x ∨ y ∈ l := by
  induction l with
  | nil => simp [insertSorted]
  | cons z zs ih =>
    by_cases h : le x z
    · simp [insertSorted, h, List.mem_cons]
    · simp only [insertSorted, if_neg h, List.mem_cons, ih]
      tauto

/-- Sorting does not change membership. -/
theorem mem_sortByBool {β : Type} (le : β → β → Bool) (y : β) (l : List β) :
    y ∈ sortByBool le l ↔ y ∈ l := by
  induction l with
  | nil => simp [sortByBool]
  | cons z zs ih => simp [sortByBool, mem_insertSorted, ih]

/-- Every pattern produced by the engine carries the clamped normalized
confidence of its signal and sits at or above the significance threshold -
over any ordered field and any decay-weight assignment. -/
theorem patterns_confidence_spec {α : Type} [LinearOrderedField α]
    (w : UserDecision → α) (ds : List DecEntry) (nowIso : String) :
    ∀ p ∈ (computePatternsPure w ds nowIso).patterns,
      p.confidence = min 1 (max 0 (specRawScore w p.signal ds /
        max (signalEvidenceCount p.signal ds : α) 3)) ∧
      ¬(p.confidence < 1 / 5) := by
  intro p hp
  have hp2 : p ∈ (buildSignalMap w ds).filterMap entryToPattern := by
    simp only [computePatternsPure] at hp
    exact (mem_sortByBool _ p _).mp hp
  rcases List.mem_filterMap.mp hp2 with ⟨entry, hentry, hEq⟩
  obtain ⟨sig, acc⟩ := entry
  by_cases hc : min 1 (max 0 (acc.rawScore / max (acc.evidence.length : α) 3)) < 1 / 5
  · simp only [entryToPattern, if_pos hc] at hEq
    exact Option.noConfusion hEq
  · simp only [entryToPattern, if_neg hc] at hEq
    have hget := mapGet_of_mem _ sig acc (mapKeys_nodup_buildSignalMap w ds) hentry
    have hraw : acc.rawScore = specRawScore w sig ds := by
      have h1 := rawOf_buildSignalMap w ds sig
      rw [rawOf, hget] at h1
      simpa using h1
    have hcount : acc.evidence.length = signalEvidenceCount sig ds := by
      have h1 := evCountOf_buildSignalMap w ds sig
      rw [evCountOf, hget] at h1
      simpa using h1
    obtain rfl := Option.some.inj hEq
    refine ⟨?_, hc⟩
    show min 1 (max 0 (acc.rawScore / max (acc.evidence.length : α) 3)) = _
    rw [hraw, hcount]

/-! ## Claim C6: pattern confidence normalization and threshold -/

/-- C6: every pattern returned by `computePatterns` has confidence
`clamp(raw_score / max(evidence_count, 3), 0, 1)` where `raw_score` is the
sum over contributing decisions of decay weight times outcome contribution
(+1 positive, -0.5 negative, 0 neutral), and no returned pattern has
confidence below the hard 0.2 threshold.  The first conjunct states this for
every decay-weight assignment over any linear ordered field; the second
instantiates the weight with `0.5 ^ (age_days / half_life_days)` over ℝ, for
every clock reading and every half-life parameter. -/
theorem c6_pattern_confidence :
    (∀ {α : Type} [LinearOrderedField α] (w : UserDecision → α)
      (ds : List DecEntry) (nowIso : String),
      ∀ p ∈ (computePatternsPure w ds nowIso).patterns,
        p.confidence = min 1 (max 0 (specRawScore w p.signal ds /
          max (signalEvidenceCount p.signal ds : α) 3)) ∧
        ¬(p.confidence < 1 / 5)) ∧
    (∀ (dateMs : String → ℝ) (now halfLifeDays : ℝ)
      (ds : List DecEntry) (nowIso : String),
      ∀ p ∈ (computePatternsPure
          (fun d => calculateDecayWeight dateMs now halfLifeDays d.date) ds nowIso).patterns,
        p.confidence = min 1 (max 0 (specRawScore
            (fun d => calculateDecayWeight dateMs now halfLifeDays d.date) p.signal ds /
          max (signalEvidenceCount p.signal ds : ℝ) 3)) ∧
        ¬(p.confidence < 1 / 5)) :=
  ⟨fun w ds nowIso => patterns_confidence_spec w ds nowIso,
   fun dateMs now halfLifeDays ds nowIso =>
     patterns_confidence_spec (fun d => calculateDecayWeight dateMs now halfLifeDays d.date)
       ds nowIso⟩

/-- Fixture decision for the pattern-engine witness. -/
def c6Decision : UserDecision :=
  { id := "d1", api := "A", category := "email", outcome := Outcome.positive, date := "2024" }

/-- Fixture decision-entry list for the pattern-engine witness. -/
def c6Entries : List DecEntry := [{ decision := c6Decision, projectName := "proj" }]

/-- The first pattern the engine computes from `c6Entries` under constant
weight 3. -/
def c6Pattern : ScoredPattern ℚ :=
  { signal := "prefers:A:email", confidence := 1, evidenceIds := ["d1"],
    firstObserved := "2024", lastReinforced := "2024" }

/-- The second pattern the engine computes from `c6Entries` under constant
weight 3. -/
def c6PatternB : ScoredPattern ℚ :=
  { signal := "positive:email", confidence := 1, evidenceIds := ["d1"],
    firstObserved := "2024", lastReinforced := "2024" }

/-- Witness for C6: the engine run on one fresh positive decision with weight
3 produces `c6Pattern`, and the theorem applies to it. -/
theorem c6_pattern_confidence_witness :
    c6Pattern.confidence = min 1 (max 0 (specRawScore (fun _ => (3 : ℚ)) c6Pattern.signal c6Entries /
      max (signalEvidenceCount c6Pattern.signal c6Entries : ℚ) 3)) ∧
    ¬(c6Pattern.confidence < 1 / 5) :=
  c6_pattern_confidence.1 (fun _ => (3 : ℚ)) c6Entries "t" c6Pattern (by
    have h1 : (computePatternsPure (fun _ => (3 : ℚ)) c6Entries "t").patterns =
        [c6Pattern, c6PatternB] := by
      simp [computePatternsPure, buildSignalMap, applyDecision, detectSignals,
        addSignal, mapGet, mapSet, c6Entries, c6Decision, scoreContribution]
      have hA : entryToPattern (α := ℚ) ("prefers:A:email",
          { signal := "prefers:A:email",
            evidence := [{ id := "d1", outcome := Outcome.positive, date := "2024" }],
            rawScore := 3 }) = some c6Pattern := by
        norm_num [entryToPattern, sortByBool, insertSorted, strLe, charListLe,
          c6Pattern, max_def, min_def]
      have hB : entryToPattern (α := ℚ) ("positive:email",
          { signal := "positive:email",
            evidence := [{ id := "d1", outcome := Outcome.positive, date := "2024" }],
            rawScore := 3 }) = some c6PatternB := by
        norm_num [entryToPattern, sortByBool, insertSorted, strLe, charListLe,
          c6PatternB, max_def, min_def]
      simp only [List.filterMap_cons, List.filterMap_nil, hA, hB]
      norm_num [sortByBool, insertSorted, c6Pattern, c6PatternB]
    rw [h1]
    exact List.mem_cons_self _ _)

/-! ## Pattern cache (src/patterns.ts) and claim C2

The module-level `cachedTaste` / `cacheTimestamp` pair of src/patterns.ts is
the cache state; `computePatterns` serves the cached taste while it is less
than 30 seconds old and recomputes otherwise. -/

/-- The module-level cache cell of src/patterns.ts. -/
structure PatternCacheState (α : Type) where
  cachedTaste : Option (ComputedTaste α) := none
  cacheTimestamp : Int := 0
  deriving DecidableEq

/-- src/patterns.ts `invalidatePatternCache`. -/
def invalidatePatternCache {α : Type} (_st : PatternCacheState α) : PatternCacheState α :=
  { cachedTaste := none, cacheTimestamp := 0 }

/-- src/patterns.ts `computePatterns` with its TTL cache: return the cached
taste while fresh, otherwise recompute from the loaded decisions and refill
the cache. -/
def computePatternsCached {α : Type} [LinearOrderedField α] (w : UserDecision → α)
    (allDecisions : List DecEntry) (nowMs : Int) (nowIso : String)
    (st : PatternCacheState α) : ComputedTaste α × PatternCacheState α :=
  match st.cachedTaste with
  | some t =>
    if nowMs - st.cacheTimestamp < 30000 then (t, st)
    else
      let result := computePatternsPure w allDecisions nowIso
      (result, { cachedTaste := some result, cacheTimestamp := nowMs })
  | none =>
    let result := computePatternsPure w allDecisions nowIso
    (result, { cachedTaste := some result, cacheTimestamp := nowMs })

/-- The MCP `record_decision` handler (src/server.ts): record locally, call
`invalidatePatternCache`, then recompute patterns.  The project registration
side effect and the new-pattern display filtering are not consumed by the
verified claims. -/
def mcpRecordDecision {α : Type} [LinearOrderedField α] (w : UserDecision → α)
    (file : DecisionsFile) (st : PatternCacheState α) (input : RecordInput)
    (newId : String) (nowMs : Int) (nowIso : String) (projectName : String) :
    UserDecision × DecisionsFile × ComputedTaste α × PatternCacheState α :=
  let recorded := recordDecision file input newId nowIso
  let st1 := invalidatePatternCache st
  let computed := computePatternsCached w
    (loadAllDecisionsM recorded.2 projectName nowIso) nowMs nowIso st1
  (recorded.1, recorded.2, computed.1, computed.2)

/-! ## Claim C2: record invalidates the pattern cache -/

/-- A stale cached taste that does not reflect the decision store. -/
def c2StaleTaste : ComputedTaste ℚ :=
  { experiences := [], patterns := [{ signal := "stale", confidence := 1 }],
    computedAt := "cached" }

/-- Cache state holding the stale taste, freshly stamped. -/
def c2Cache : PatternCacheState ℚ :=
  { cachedTaste := some c2StaleTaste, cacheTimestamp := 0 }

/-- Record input for the C2 counterexample. -/
def c2Input : RecordInput := { api := "A", category := "email", outcome := Outcome.neutral }

/-- Decision store after recording the new decision. -/
def c2File : DecisionsFile :=
  (recordDecision DecisionsFile.missing c2Input "id1" "2024").2

/-- C2 counterexample: `recordDecision` (src/decisions.ts) does not touch the
pattern cache, so a `computePatterns` call after recording but within the TTL
window still serves the previously cached taste instead of recomputing from
the decision store: the cached result lacks the newly recorded decision. -/
theorem c2_record_no_invalidate_counterexample :
    (computePatternsCached (fun _ => (1 : ℚ))
        (loadAllDecisionsM c2File "proj" "2024") 1000 "2024" c2Cache).1 = c2StaleTaste ∧
    c2StaleTaste ≠
      computePatternsPure (fun _ => (1 : ℚ)) (loadAllDecisionsM c2File "proj" "2024") "2024" :=
  ⟨rfl, by decide⟩

/-- C2 amended: `recordDecision` itself leaves the cache untouched; the MCP
`record_decision` handler invalidates the cache immediately after recording,
so the taste it returns - and any `computePatterns` run on an invalidated
cache - is recomputed from the decision store rather than served from the
previous cache. -/
theorem c2_mcp_record_invalidates {α : Type} [LinearOrderedField α]
    (w : UserDecision → α) (file : DecisionsFile) (st : PatternCacheState α)
    (input : RecordInput) (newId : String) (nowMs : Int) (nowIso : String)
    (projectName : String) :
    (mcpRecordDecision w file st input newId nowMs nowIso projectName).2.2.1 =
      computePatternsPure w
        (loadAllDecisionsM (recordDecision file input newId nowIso).2 projectName nowIso)
        nowIso ∧
    (∀ (ds : List DecEntry) (nowMs2 : Int) (nowIso2 : String) (st2 : PatternCacheState α),
      (computePatternsCached w ds nowMs2 nowIso2 (invalidatePatternCache st2)).1 =
        computePatternsPure w ds nowIso2) :=
  ⟨rfl, fun _ _ _ _ => rfl⟩

/-! ## Dynamic profile documents and surgical updates (src/profile.ts)

The local profile is mutated as a dynamic JSON object through dot-paths.
`JValue` is the JSON value tree (null is not modelled: the documents written
by the tool contain none, and a null intermediate would raise a TypeError in
the source walk).  Property access on arrays by non-numeric keys yields
undefined in JS and named properties set on arrays are dropped by
`JSON.stringify`; the definitions below reflect the persisted document. -/

/-- JSON value tree of a profile document. -/
inductive JValue where
  | obj (fields : List (String × JValue))
  | arr (elements : List JValue)
  | str (s : String)
  | num (q : ℚ)
  | bool (b : Bool)

/-- A JSON object: its field list in insertion order. -/
abbrev JObj : Type := List (String × JValue)

/-- Property read on an object. -/
def objGet (o : JObj) (key : String) : Option JValue :=
  match o with
  | [] => none
  | (k, v) :: rest => if k = key then some v else objGet rest key

/-- Property write on an object: overwrite in place or append. -/
def objSet (o : JObj) (key : String) (v : JValue) : JObj :=
  match o with
  | [] => [(key, v)]
  | (k, w) :: rest => if k = key then (key, v) :: rest else (k, w) :: objSet rest key v

/-- JS `delete obj[key]`. -/
def objDelete (o : JObj) (key : String) : JObj :=
  match o with
  | [] => []
  | (k, w) :: rest => if k = key then rest else (k, w) :: objDelete rest key

/-- Character-level splitter behind `path.split(".")`. -/
def splitOnChar (sep : Char) : List Char → List (List Char)
  | [] => [[]]
  | c :: rest =>
    let r := splitOnChar sep rest
    if c = sep then [] :: r
    else
      match r with
      | [] => [[c]]
      | h :: t => (c :: h) :: t

/-- JS `path.split(".")`; never returns an empty list. -/
def splitPath (path : String) : List String :=
  (splitOnChar '.' path.data).map (fun l => ⟨l⟩)

/-- src/profile.ts `setNestedValue` on an exploded path: walk the parts,
replacing undefined or non-object intermediates with a fresh object, and
assign at the final key.  A descent into an array sets a named property that
the JSON serialization drops, leaving the persisted document unchanged. -/
def setNestedParts (o : JObj) : List String → JValue → JObj
  | [], _ => o
  | [last], v => objSet o last v
  | part :: p2 :: rest, v =>
    match objGet o part with
    | some (JValue.obj co) => objSet o part (JValue.obj (setNestedParts co (p2 :: rest) v))
    | some (JValue.arr _) => o
    | _ => objSet o part (JValue.obj (setNestedParts [] (p2 :: rest) v))

/-- src/profile.ts `setNestedValue`. -/
def setNestedValue (o : JObj) (path : String) (value : JValue) : JObj :=
  setNestedParts o (splitPath path) value

/-- src/profile.ts `deleteNestedValue` on an exploded path: walk the parts,
returning false (and changing nothing) when an intermediate is missing or not
an object, and delete the final key when it exists. -/
def deleteNestedParts (o : JObj) : List String → Bool × JObj
  | [] => (false, o)
  | [last] =>
    match objGet o last with
    | some _ => (true, objDelete o last)
    | none => (false, o)
  | part :: p2 :: rest =>
    match objGet o part with
    | some (JValue.obj co) =>
      let r := deleteNestedParts co (p2 :: rest)
      (r.1, objSet o part (JValue.obj r.2))
    | _ => (false, o)

/-- src/profile.ts `deleteNestedValue`. -/
def deleteNestedValue (o : JObj) (path : String) : Bool × JObj :=
  deleteNestedParts o (splitPath path)

/-- src/profile.ts `getNestedValue` walk over a value. -/
def getNestedParts (v : JValue) : List String → Option JValue
  | [] => some v
  | part :: rest =>
    match v with
    | JValue.obj fields =>
      match objGet fields part with
      | some child => getNestedParts child rest
      | none => none
    | _ => none

/-- src/profile.ts `getNestedValue` on a document. -/
def getNestedValue (o : JObj) (path : String) : Option JValue :=
  getNestedParts (JValue.obj o) (splitPath path)

mutual

/-- Structural equality of JSON values (JS `===` on the primitive leaves the
profile arrays hold). -/
def jvalEq : JValue → JValue → Bool
  | JValue.obj a, JValue.obj b => jvalFieldsEq a b
  | JValue.arr a, JValue.arr b => jvalListEq a b
  | JValue.str a, JValue.str b => a == b
  | JValue.num a, JValue.num b => a == b
  | JValue.bool a, JValue.bool b => a == b
  | _, _ => false

/-- Structural equality on JSON arrays. -/
def jvalListEq : List JValue → List JValue → Bool
  | [], [] => true
  | a :: as, b :: bs => jvalEq a b && jvalListEq as bs
  | _, _ => false

/-- Structural equality on JSON object field lists. -/
def jvalFieldsEq : List (String × JValue) → List (String × JValue) → Bool
  | [], [] => true
  | (k1, v1) :: as, (k2, v2) :: bs => k1 == k2 && jvalEq v1 v2 && jvalFieldsEq as bs
  | _, _ => false

end

/-! ## Object-level lemmas for the round-trip analysis -/

/-- Reading back the key just written. -/
theorem objGet_objSet_self (o : JObj) (k : String) (v : JValue) :
    objGet (objSet o k v) k = some v := by
  induction o with
  | nil => simp [objGet, objSet]
  | cons kv rest ih =>
    obtain ⟨k1, v1⟩ := kv
    by_cases h : k1 = k
    · simp [objGet, objSet, h]
    · simp [objGet, objSet, h, ih]

/-- Writing an absent key appends it. -/
theorem objSet_of_get_none (o : JObj) (k : String) (v : JValue)
    (h : objGet o k = none) : objSet o k v = o ++ [(k, v)] := by
  induction o with
  | nil => rfl
  | cons kv rest ih =>
    obtain ⟨k1, v1⟩ := kv
    by_cases hk : k1 = k
    · simp [objGet, hk] at h
    · simp only [objGet, if_neg hk] at h
      simp [objSet, hk, ih h]

/-- Deleting a freshly appended key restores the object. -/
theorem objDelete_append_of_get_none (o : JObj) (k : String) (v : JValue)
    (h : objGet o k = none) : objDelete (o ++ [(k, v)]) k = o := by
  induction o with
  | nil => simp [objDelete]
  | cons kv rest ih =>
    obtain ⟨k1, v1⟩ := kv
    by_cases hk : k1 = k
    · simp [objGet, hk] at h
    · simp only [objGet, if_neg hk] at h
      simp [objDelete, hk, ih h]

/-- Overwriting an overwrite. -/
theorem objSet_objSet (o : JObj) (k : String) (v1 v2 : JValue) :
    objSet (objSet o k v1) k v2 = objSet o k v2 := by
  induction o with
  | nil => simp [objSet]
  | cons kv rest ih =>
    obtain ⟨k1, w⟩ := kv
    by_cases h : k1 = k
    · simp [objSet, h]
    · simp [objSet, h, ih]

/-- Writing back the value a key already holds is the identity. -/
theorem objSet_get_self (o : JObj) (k : String) (w : JValue)
    (h : objGet o k = some w) : objSet o k w = o := by
  induction o with
  | nil => simp [objGet] at h
  | cons kv rest ih =>
    obtain ⟨k1, v1⟩ := kv
    by_cases hk : k1 = k
    · subst hk
      have h2 : v1 = w := by simpa [objGet] using h
      subst h2
      simp [objSet]
    · simp only [objGet, if_neg hk] at h
      simp [objSet, hk, ih h]

/-- The path precondition of the amended round-trip: every intermediate part
resolves to an existing object and the final key is absent. -/
def pathFreshOk (o : JObj) : List String → Bool
  | [] => false
  | [last] => (objGet o last).isNone
  | part :: p2 :: rest =>
    match objGet o part with
    | some (JValue.obj co) => pathFreshOk co (p2 :: rest)
    | _ => false

/-- Round-trip at the parts level: setting a fresh path and then deleting it
restores the document exactly, and the delete reports success. -/
theorem delete_set_roundtrip (parts : List String) (o : JObj) (v : JValue)
    (h : pathFreshOk o parts = true) :
    deleteNestedParts (setNestedParts o parts v) parts = (true, o) := by
  induction parts generalizing o with
  | nil => exact absurd h (by simp [pathFreshOk])
  | cons part rest ih =>
    cases rest with
    | nil =>
      have hnone : objGet o part = none := by
        simpa [pathFreshOk, Option.isNone_iff_eq_none] using h
      show deleteNestedParts (objSet o part v) [part] = (true, o)
      simp only [deleteNestedParts, objGet_objSet_self]
      rw [objSet_of_get_none o part v hnone, objDelete_append_of_get_none o part v hnone]
    | cons p2 rest2 =>
      simp only [pathFreshOk] at h
      cases hg : objGet o part with
      | none => rw [hg] at h; cases h
      | some child =>
        cases child with
        | obj co =>
          rw [hg] at h
          show deleteNestedParts (setNestedParts o (part :: p2 :: rest2) v)
            (part :: p2 :: rest2) = (true, o)
          simp only [setNestedParts, hg]
          simp only [deleteNestedParts, objGet_objSet_self]
          rw [ih co h]
          simp only [objSet_objSet]
          rw [objSet_get_self o part (JValue.obj co) hg]
        | arr a => rw [hg] at h; cases h
        | str s => rw [hg] at h; cases h
        | num q => rw [hg] at h; cases h
        | bool b => rw [hg] at h; cases h

/-! ## The surgical update operation set of updateProjectProfile -/

/-- One entry of the audit trail returned by `updateProjectProfile`. -/
structure AppliedOp where
  op : String
  path : String
  value : JValue
  previousValue : Option JValue

/-- The three operation maps accepted by `updateProjectProfile`. -/
structure ProfileOperations where
  set : List (String × JValue) := []
  append : List (String × JValue) := []
  remove : List (String × JValue) := []

/-- One SET entry: overwrite at the dot-path, recording the previous value. -/
def applySetOp (st : JObj × List AppliedOp × List String)
    (pv : String × JValue) : JObj × List AppliedOp × List String :=
  let previousValue := getNestedValue st.1 pv.1
  (setNestedValue st.1 pv.1 pv.2,
   st.2.1 ++ [{ op := "set", path := pv.1, value := pv.2, previousValue := previousValue }],
   st.2.2)

/-- One APPEND entry: initialize as array when the path is empty (with a
warning), push onto an existing array, warn on a non-array. -/
def applyAppendOp (st : JObj × List AppliedOp × List String)
    (pv : String × JValue) : JObj × List AppliedOp × List String :=
  match getNestedValue st.1 pv.1 with
  | none =>
    let newArray : JValue :=
      match pv.2 with
      | JValue.arr l => JValue.arr l
      | v => JValue.arr [v]
    (setNestedValue st.1 pv.1 newArray,
     st.2.1 ++ [{ op := "append", path := pv.1, value := pv.2, previousValue := none }],
     st.2.2 ++ ["Initialized " ++ pv.1 ++ " as new array"])
  | some (JValue.arr a) =>
    let toAppend :=
      match pv.2 with
      | JValue.arr l => l
      | v => [v]
    let entry : AppliedOp :=
      { op := "append", path := pv.1, value := pv.2, previousValue := some (JValue.arr a) }
    (setNestedValue st.1 pv.1 (JValue.arr (a ++ toAppend)), st.2.1 ++ [entry], st.2.2)
  | some _ =>
    (st.1, st.2.1, st.2.2 ++ ["Cannot append to non-array at " ++ pv.1])

/-- One REMOVE entry: the boolean true deletes the key (warning when the path
is absent); otherwise matching values are filtered out of an existing array,
with a warning on a non-array. -/
def applyRemoveOp (st : JObj × List AppliedOp × List String)
    (pv : String × JValue) : JObj × List AppliedOp × List String :=
  let current := getNestedValue st.1 pv.1
  match pv.2 with
  | JValue.bool true =>
    let r := deleteNestedValue st.1 pv.1
    if r.1 then
      let entry : AppliedOp :=
        { op := "remove", path := pv.1, value := JValue.bool true, previousValue := current }
      (r.2, st.2.1 ++ [entry], st.2.2)
    else
      (st.1, st.2.1, st.2.2 ++ ["Path " ++ pv.1 ++ " not found for removal"])
  | _ =>
    match current with
    | some (JValue.arr a) =>
      let toRemove :=
        match pv.2 with
        | JValue.arr l => l
        | v => [v]
      let newArray := a.filter (fun item => !(toRemove.any (fun t => jvalEq item t)))
      let entry : AppliedOp :=
        { op := "remove", path := pv.1, value := pv.2, previousValue := some (JValue.arr a) }
      (setNestedValue st.1 pv.1 (JValue.arr newArray), st.2.1 ++ [entry], st.2.2)
    | _ => (st.1, st.2.1, st.2.2 ++ ["Cannot remove from non-array at " ++ pv.1])

/-- The in-memory application core of src/profile.ts `updateProjectProfile`:
SET entries, then APPEND entries, then REMOVE entries, on a copy of the
document, returning the document, the audit trail and the warnings.  The
surrounding function loads the profile (creating a default when missing),
persists the result and syncs the registry - external I/O around this core. -/
def applyProfileOperations (profile : JObj) (operations : ProfileOperations) :
    JObj × List AppliedOp × List String :=
  let afterSet := operations.set.foldl applySetOp (profile, [], [])
  let afterAppend := operations.append.foldl applyAppendOp afterSet
  operations.remove.foldl applyRemoveOp afterAppend

/-! ## Claim C4: set-then-remove round trip -/

/-- Fixture document with an existing top-level key. -/
def c4Doc : JObj := [("a", JValue.num 1)]

/-- C4 counterexample: on a path that already exists, set followed by
remove(true) does not restore the pre-set document - remove deletes the key
entirely instead of restoring its previous value. -/
theorem c4_roundtrip_counterexample :
    (applyProfileOperations
      (applyProfileOperations c4Doc { set := [("a", JValue.num 2)] }).1
      { remove := [("a", JValue.bool true)] }).1 ≠ c4Doc := by
  simp [applyProfileOperations, applySetOp, applyRemoveOp, getNestedValue,
    getNestedParts, setNestedValue, setNestedParts, deleteNestedValue,
    deleteNestedParts, splitPath, splitOnChar, objGet, objSet, objDelete, c4Doc]

/-- C4 amended: applying set then remove(true) on the same dot-path via the
update operation core returns the document to its pre-set state whenever the
intermediate objects of the path already exist and the final key is absent
(in particular remove reports success); when the path pre-exists, remove
deletes the key instead of restoring the old value, and a set that creates
intermediate objects leaves those objects behind. -/
theorem c4_roundtrip_fresh_path (doc : JObj) (path : String) (v : JValue)
    (h : pathFreshOk doc (splitPath path) = true) :
    (applyProfileOperations
      (applyProfileOperations doc { set := [(path, v)] }).1
      { remove := [(path, JValue.bool true)] }).1 = doc := by
  have hrt := delete_set_roundtrip (splitPath path) doc v h
  simp only [applyProfileOperations, List.foldl_cons, List.foldl_nil,
    applySetOp, applyRemoveOp, setNestedValue, deleteNestedValue]
  rw [hrt]
  simp

/-- Fixture document for the round-trip witness: the parent object exists,
the final key does not. -/
def c4WDoc : JObj :=
  [("constraints", JValue.obj [("compliance", JValue.arr [JValue.str "SOC2"])])]

/-- Witness for the amended C4 at a concrete nested path. -/
theorem c4_roundtrip_fresh_path_witness :
    (applyProfileOperations
      (applyProfileOperations c4WDoc
        { set := [("constraints.selfHosted", JValue.bool true)] }).1
      { remove := [("constraints.selfHosted", JValue.bool true)] }).1 = c4WDoc :=
  c4_roundtrip_fresh_path c4WDoc "constraints.selfHosted" (JValue.bool true) (by decide)

/-! ## Category filters (src/patterns.ts) and category normalization -/

/-- src/patterns.ts `filterPatternsForCategory`: category-specific signals
plus the cross-cutting context signals. -/
def filterPatternsForCategory (patterns : List (ScoredPattern ℚ)) (category : String) :
    List (ScoredPattern ℚ) :=
  let lowerCategory := strToLower category
  patterns.filter (fun p =>
    strIncludes p.signal (":" ++ lowerCategory) || strStartsWith p.signal "context:")

/-- src/patterns.ts `filterExperiencesForCategory` (case-insensitive). -/
def filterExperiencesForCategory (experiences : List ExperienceSummary) (category : String) :
    List ExperienceSummary :=
  let lowerCategory := strToLower category
  experiences.filter (fun e => strToLower e.category == lowerCategory)

/-- Whitespace test behind `trim()` (the source strings only ever carry these
four whitespace characters). -/
def isWhitespaceChar (c : Char) : Bool :=
  c = ' ' || c = '\t' || c = '\n' || c = '\r'

/-- JS `s.trim()`. -/
def strTrim (s : String) : String :=
  ⟨((s.data.dropWhile isWhitespaceChar).reverse.dropWhile isWhitespaceChar).reverse⟩

/-- src/server.ts `normalizeCategory` over the caller-supplied alias table:
lower-case, trim, look up, pass unmapped strings through unchanged. -/
def normalizeCategory (aliases : List (String × String)) (category : String) : String :=
  let lower := strTrim (strToLower category)
  (aliases.lookup lower).getD lower

/-! ## Gap detection (src/profile.ts `detectGaps`) -/

/-- One unanswered configuration question (src/types.ts `Gap`). -/
structure Gap where
  field : String
  question : String
  options : List String := []
  relevance : String
  impact : String
  deriving DecidableEq

/-- One required-field rule of the static per-category gap table. -/
structure GapField where
  path : String
  question : String
  options : List String := []
  relevance : String
  impact : String
  deriving DecidableEq

/-- The static `CATEGORY_GAPS` rule table of src/profile.ts. -/
def CATEGORY_GAPS : List (String × List GapField) :=
  [("email",
    [{ path := "constraints.compliance",
       question := "Does this project have compliance requirements (SOC2, HIPAA, GDPR)?",
       options := ["SOC2", "HIPAA", "GDPR", "None"],
       relevance := "Affects which email providers are viable for regulated industries",
       impact := "high" },
     { path := "project.regions",
       question := "Which regions will your users be in?",
       options := ["us", "eu", "apac", "global"],
       relevance := "Email deliverability varies by region",
       impact := "medium" }]),
   ("payments",
    [{ path := "constraints.compliance",
       question := "Does this project require PCI-DSS compliance?",
       options := ["PCI-DSS", "SOC2", "None"],
       relevance := "Payment processing has strict compliance requirements",
       impact := "high" },
     { path := "project.regions",
       question := "Which regions will you accept payments from?",
       options := ["us", "eu", "global"],
       relevance := "Payment provider availability varies by region",
       impact := "high" }]),
   ("auth",
    [{ path := "constraints.selfHosted",
       question := "Do you need self-hosted authentication?",
       options := ["Yes", "No"],
       relevance := "Determines whether cloud-only providers are viable",
       impact := "high" },
     { path := "constraints.compliance",
       question := "Any compliance requirements for auth (SOC2, HIPAA)?",
       options := ["SOC2", "HIPAA", "None"],
       relevance := "Auth providers have different compliance certifications",
       impact := "medium" }]),
   ("ai",
    [{ path := "constraints.budgetCeiling.monthly",
       question := "What is your monthly budget for AI API costs?",
       relevance := "AI APIs have significant cost differences",
       impact := "high" },
     { path := "project.scale",
       question := "What scale is this project?",
       options := ["hobby", "startup", "growth", "enterprise"],
       relevance := "Affects rate limits and pricing tiers",
       impact := "medium" }]),
   ("storage",
    [{ path := "constraints.dataResidency",
       question := "Any data residency requirements?",
       options := ["us", "eu", "apac", "None"],
       relevance := "Storage providers have different regional availability",
       impact := "high" }])]

/-- The project block of the effective profile as the dynamic object the
source walks with `getNestedValue`. -/
def projectToDoc (p : ProjectContext) : JObj :=
  [("name", JValue.str p.name)] ++
  (match p.scale with
   | some s => [("scale", JValue.str s)]
   | none => []) ++
  (match p.regions with
   | some r => [("regions", JValue.arr (r.map JValue.str))]
   | none => [])

/-- The constraint block of the effective profile as a dynamic object. -/
def constraintsToDoc (c : Constraints) : JObj :=
  (match c.compliance with
   | some l => [("compliance", JValue.arr (l.map JValue.str))]
   | none => []) ++
  (match c.budgetCeiling with
   | some b =>
     [("budgetCeiling", JValue.obj
       ((match b.monthly with
         | some m => [("monthly", JValue.num m)]
         | none => []) ++
        (match b.perRequest with
         | some m => [("perRequest", JValue.num m)]
         | none => [])))]
   | none => []) ++
  (match c.selfHosted with
   | some b => [("selfHosted", JValue.bool b)]
   | none => []) ++
  (match c.dataResidency with
   | some l => [("dataResidency", JValue.arr (l.map JValue.str))]
   | none => []) ++
  (match c.mustHaveFeatures with
   | some l => [("mustHaveFeatures", JValue.arr (l.map JValue.str))]
   | none => []) ++
  (match c.dealbreakers with
   | some l => [("dealbreakers", JValue.arr (l.map JValue.str))]
   | none => []) ++
  (match c.requiredSdkLanguages with
   | some l => [("requiredSdkLanguages", JValue.arr (l.map JValue.str))]
   | none => []) ++
  (match c.vendorLockInTolerance with
   | some s => [("vendorLockInTolerance", JValue.str s)]
   | none => [])

/-- The preference block of the effective profile as a dynamic object. -/
def preferencesToDoc (p : Preferences) : JObj :=
  (match p.prioritize with
   | some l => [("prioritize", JValue.arr (l.map JValue.str))]
   | none => []) ++
  (match p.riskTolerance with
   | some s => [("riskTolerance", JValue.str s)]
   | none => []) ++
  (match p.preferredProviders with
   | some l => [("preferredProviders", JValue.arr (l.map JValue.str))]
   | none => []) ++
  (match p.avoidProviders with
   | some l => [("avoidProviders", JValue.arr (l.map JValue.str))]
   | none => [])

/-- The whole effective profile as the dynamic object `detectGaps` walks.  An
absent project block is an undefined property, indistinguishable from a
missing key under `getNestedValue`. -/
def effectiveToDoc (eff : EffectiveProfile) : JObj :=
  (match eff.project with
   | some p => [("project", JValue.obj (projectToDoc p))]
   | none => []) ++
  [("constraints", JValue.obj (constraintsToDoc eff.constraints)),
   ("preferences", JValue.obj (preferencesToDoc eff.preferences))]

/-- src/profile.ts `detectGaps`: per-category required fields that are
undefined or empty arrays become gaps; unknown categories fall back to a
generic scale question. -/
def detectGaps (effective : EffectiveProfile) (category : String) : List Gap :=
  match CATEGORY_GAPS.lookup (strToLower category) with
  | none =>
    if (effective.project.bind (fun p => p.scale)).isNone then
      [{ field := "project.scale"
         question := "What scale is this project?"
         options := ["hobby", "startup", "growth", "enterprise"]
         relevance := "Affects pricing and feature recommendations"
         impact := "medium" }]
    else []
  | some config =>
    config.filterMap (fun f =>
      let value := getNestedValue (effectiveToDoc effective) f.path
      let missing :=
        match value with
        | none => true
        | some (JValue.arr a) => a.isEmpty
        | some _ => false
      if missing then
        some { field := f.path, question := f.question, options := f.options,
               relevance := f.relevance, impact := f.impact }
      else none)

/-! ## Recommendation orchestrator (src/server.ts `recommend`)

Database reads (`getProvidersByCategory`, `getProviderEcosystems`), the
profile and taste loads, and the `randomUUID()` decision id are external
inputs of the orchestration; they enter as parameters.  The function is
total: both empty-result terminal states are ordinary return values. -/

/-- One alternative with its tradeoff annotation. -/
structure Alternative where
  provider : String
  tradeoff : String
  deriving DecidableEq

/-- The structured response of a recommendation call (src/server.ts
`RecommendResult`); the nested `context` object is flattened into its two
fields, and the optional-when-empty `alternatives` and `gaps` arrays are
plain lists. -/
structure RecommendResult where
  provider : String
  package : Option String := none
  confidence : String
  reason : String
  alternatives : List Alternative := []
  gaps : List Gap := []
  relevantExperiences : List ExperienceSummary := []
  appliedPatterns : List (String × ℚ) := []
  decisionId : Option String := none
  catalogVersion : String
  deriving DecidableEq

/-- The lower-cased avoid list built from the effective preferences. -/
def recommendAvoidList (effective : EffectiveProfile) : List String :=
  (effective.preferences.avoidProviders.getD []).map strToLower

/-- Ecosystems of providers the user had positive experiences with, over all
categories. -/
def recommendUsedEcosystems (taste : ComputedTaste ℚ)
    (providerEcosystems : List (String × String)) : List String :=
  (taste.experiences.filter (fun e => e.outcome = Outcome.positive)).filterMap
    (fun e => providerEcosystems.lookup (strToLower e.api))

/-- Avoid-filter, score, drop disqualified, sort descending by score. -/
def recommendScored (effective : EffectiveProfile) (taste : ComputedTaste ℚ)
    (providers : List KnownProvider) (providerEcosystems : List (String × String))
    (now : Int) (normalized : String) : List (KnownProvider × ℚ) :=
  let categoryExperiences := filterExperiencesForCategory taste.experiences normalized
  let categoryPatterns := filterPatternsForCategory taste.patterns normalized
  let ecosystemCtx : EcosystemContext :=
    { usedEcosystems := recommendUsedEcosystems taste providerEcosystems }
  sortByBool (fun a b => decide (b.2 ≤ a.2))
    (((providers.filter
        (fun p => !((recommendAvoidList effective).contains (strToLower p.name)))).map
      (fun p => (p, scoreProvider p effective categoryExperiences categoryPatterns
        (some ecosystemCtx) now))).filter (fun pr => pr.2 ≥ 0))

/-- src/server.ts `recommend`. -/
def recommend (aliases : List (String × String)) (category : String)
    (effective : EffectiveProfile) (taste : ComputedTaste ℚ)
    (providers : List KnownProvider) (providerEcosystems : List (String × String))
    (decisionId : String) (now : Int) : RecommendResult :=
  let normalized := normalizeCategory aliases category
  let categoryExperiences := filterExperiencesForCategory taste.experiences normalized
  let categoryPatterns := filterPatternsForCategory taste.patterns normalized
  if providers.isEmpty then
    { provider := "unknown"
      confidence := "low"
      reason := "No providers found for \"" ++ category ++ "\". Research needed."
      catalogVersion := "0.0.0" }
  else
    let usedEcosystems := recommendUsedEcosystems taste providerEcosystems
    match recommendScored effective taste providers providerEcosystems now normalized with
    | [] =>
      { provider := "none"
        confidence := "low"
        reason := "All providers filtered out by constraints."
        catalogVersion := "0.0.0" }
    | top :: restScored =>
      let alternatives := (restScored.take 3).map (fun s =>
        let tradeoffs :=
          (if (s.1.pricing.bind (fun pm => pm.freeTier)).isSome &&
              !((top.1.pricing.bind (fun pm => pm.freeTier)).isSome) then
            ["has free tier"] else []) ++
          (if (s.1.strengths.getD []).contains "dx" &&
              !((top.1.strengths.getD []).contains "dx") then
            ["better DX"] else []) ++
          (if s.1.selfHostable.getD false && !(top.1.selfHostable.getD false) then
            ["self-hostable"] else [])
        ({ provider := s.1.name
           tradeoff := if 0 < tradeoffs.length then String.intercalate ", " tradeoffs
             else "lower score" } : Alternative))
      let reasons :=
        (match effective.project.bind (fun p => p.scale) with
         | some sc => ["Best match for " ++ sc ++ " scale"]
         | none => []) ++
        (if 0 < (top.1.strengths.getD []).length then
          ["Strong on " ++ String.intercalate ", " ((top.1.strengths.getD []).take 2)]
         else []) ++
        (match top.1.ecosystem with
         | some e =>
           if usedEcosystems.contains e then
             ["Same ecosystem as other services you are using (" ++ e ++ ")"]
           else []
         | none => []) ++
        (if 0 < (categoryExperiences.filter (fun e =>
            strToLower e.api == strToLower top.1.name && e.outcome = Outcome.positive)).length then
          ["You had good experiences with this before"] else []) ++
        (let negativeExps := categoryExperiences.filter (fun e =>
           !(strToLower e.api == strToLower top.1.name) && e.outcome = Outcome.negative)
         if 0 < negativeExps.length then
           ["Avoiding " ++ String.intercalate ", " (negativeExps.map (fun e => e.api)) ++
             " based on past issues"]
         else [])
      let gaps := detectGaps effective normalized
      let highImpactGaps := gaps.filter (fun g => g.impact == "high")
      let confidence :=
        if top.2 ≥ 30 ∧ highImpactGaps.length = 0 then "high"
        else if top.2 ≥ 15 ∧ highImpactGaps.length ≤ 1 then "medium"
        else "low"
      { provider := top.1.name
        package := top.1.package
        confidence := confidence
        reason := String.intercalate ". " reasons ++ "."
        alternatives := alternatives
        gaps := gaps
        relevantExperiences := categoryExperiences.take 5
        appliedPatterns := (categoryPatterns.take 5).map (fun p => (p.signal, p.confidence))
        decisionId := some decisionId
        catalogVersion := "2.0.0" }

/-! ## Claim C7: the two distinct empty-result terminal states -/

/-- C7: the orchestrator (a total function - neither case throws) has two
distinct empty-result terminal states: with zero catalog candidates it
returns the "unknown" no-candidates response, and with a non-empty candidate
list in which every provider is either on the avoid list or disqualified by
scoring (score -1) it returns the "none" response; the two responses are
distinguishable by their provider field. -/
theorem c7_empty_states (aliases : List (String × String)) (category : String)
    (effective : EffectiveProfile) (taste : ComputedTaste ℚ)
    (providers : List KnownProvider) (providerEcosystems : List (String × String))
    (decisionId : String) (now : Int) :
    (providers = [] →
      (recommend aliases category effective taste providers providerEcosystems
        decisionId now).provider = "unknown") ∧
    (providers ≠ [] →
      (∀ p ∈ providers,
        (recommendAvoidList effective).contains (strToLower p.name) = true ∨
        scoreProvider p effective
          (filterExperiencesForCategory taste.experiences (normalizeCategory aliases category))
          (filterPatternsForCategory taste.patterns (normalizeCategory aliases category))
          (some { usedEcosystems := recommendUsedEcosystems taste providerEcosystems })
          now = -1) →
      (recommend aliases category effective taste providers providerEcosystems
        decisionId now).provider = "none") ∧
    ("unknown" : String) ≠ "none" := by
  refine ⟨?_, ?_, by decide⟩
  · rintro rfl
    rfl
  · intro hne hall
    have hscored : recommendScored effective taste providers providerEcosystems now
        (normalizeCategory aliases category) = [] := by
      have hfilter : (((providers.filter
          (fun p => !((recommendAvoidList effective).contains (strToLower p.name)))).map
        (fun p => (p, scoreProvider p effective
          (filterExperiencesForCategory taste.experiences (normalizeCategory aliases category))
          (filterPatternsForCategory taste.patterns (normalizeCategory aliases category))
          (some { usedEcosystems := recommendUsedEcosystems taste providerEcosystems })
          now))).filter (fun pr => pr.2 ≥ 0)) = [] := by
        rw [List.filter_eq_nil_iff]
        intro pr hpr
        rcases List.mem_map.mp hpr with ⟨p, hp, rfl⟩
        have hpin := List.mem_filter.mp hp
        rcases hall p hpin.1 with hav | hsc
        · rw [hav] at hpin
          simp at hpin
        · simp only [hsc]
          norm_num
      show sortByBool _ _ = []
      rw [hfilter]
      rfl
    simp only [recommend, List.isEmpty_iff]
    rw [if_neg hne, hscored]

/-- Effective profile avoiding the provider named X. -/
def c7AvoidEff : EffectiveProfile :=
  { preferences := { avoidProviders := some ["X"] } }

/-- Empty computed taste for the orchestrator witness. -/
def c7EmptyTaste : ComputedTaste ℚ :=
  { experiences := [], patterns := [], computedAt := "" }

/-- Candidate provider that sits on the avoid list of `c7AvoidEff`. -/
def c7Provider : KnownProvider := { name := "X" }

/-- Witness for C7: an empty catalog yields the "unknown" response and a
catalog whose only candidate is avoided yields the "none" response. -/
theorem c7_empty_states_witness :
    (recommend [] "email" {} c7EmptyTaste [] [] "id" 0).provider = "unknown" ∧
    (recommend [] "email" c7AvoidEff c7EmptyTaste [c7Provider] [] "id" 0).provider = "none" :=
  ⟨(c7_empty_states [] "email" {} c7EmptyTaste [] [] "id" 0).1 rfl,
   (c7_empty_states [] "email" c7AvoidEff c7EmptyTaste [c7Provider] [] "id" 0).2.1
     (by decide) (by decide)⟩

end StackSherpa
